import Mathlib

/-!
Verification of the rig-mathematics core of the Sprite_animator repository:
shallow embedding of the transform resolver, the two-bone IK solver, the
keyframe interpolation engine, the bone-store operations and the mask
analyzer, with theorems settling the specification claims.

JavaScript numbers are modelled by real numbers; machine floating point is
not modelled.  Stateful store actions are modelled as pure functions on the
bone list they touch.
-/

namespace SpriteAnimator

noncomputable section

/-! ## utils/math.ts -/

/-- `lerp` from utils/math.ts. -/
def lerp (a b t : ℝ) : ℝ := a + (b - a) * t

/-- `clamp(value, min, max) = Math.max(min, Math.min(max, value))` from
utils/math.ts (parameters renamed `lo`, `hi`: `min`/`max` are Lean names). -/
def clamp (value lo hi : ℝ) : ℝ := max lo (min hi value)

/-- JavaScript truncation toward zero, as used by the `%` operator. -/
def jsTrunc (x : ℝ) : ℝ := if 0 ≤ x then (⌊x⌋ : ℤ) else (⌈x⌉ : ℤ)

/-- The JavaScript remainder operator `a % m`: the remainder whose sign
follows the dividend, `a - m * trunc (a / m)`. -/
def jsMod (a m : ℝ) : ℝ := a - m * jsTrunc (a / m)

/-- `normalizeAngle` from utils/math.ts: `angle %= 360`, then subtract 360
if above 180, then add 360 if below −180. -/
def normalizeAngle (angle : ℝ) : ℝ :=
  let a0 := jsMod angle 360
  let a1 := if a0 > 180 then a0 - 360 else a0
  if a1 < -180 then a1 + 360 else a1

/-- `lerpAngle` from utils/math.ts: blend along the normalized delta. -/
def lerpAngle (a b t : ℝ) : ℝ := a + normalizeAngle (b - a) * t

/-- `degToRad` from utils/math.ts. -/
def degToRad (deg : ℝ) : ℝ := deg * Real.pi / 180

/-- `radToDeg` from utils/math.ts. -/
def radToDeg (rad : ℝ) : ℝ := rad * 180 / Real.pi

/-- `Math.atan2(y, x)`, by the ECMAScript piecewise specification (signed
zeros are not distinguished; `atan2 0 0 = 0`). -/
def atan2 (y x : ℝ) : ℝ :=
  if 0 < x then Real.arctan (y / x)
  else if x < 0 ∧ 0 ≤ y then Real.arctan (y / x) + Real.pi
  else if x < 0 ∧ y < 0 then Real.arctan (y / x) - Real.pi
  else if x = 0 ∧ 0 < y then Real.pi / 2
  else if x = 0 ∧ y < 0 then -(Real.pi / 2)
  else 0

/-- `Math.hypot(x, y)`. -/
def hypot (x y : ℝ) : ℝ := Real.sqrt (x * x + y * y)

/-- `Math.round(x) = ⌊x + 1/2⌋` (ECMAScript rounds half toward +∞). -/
def jsRound (x : ℝ) : ℝ := (⌊x + 1 / 2⌋ : ℤ)

/-! ## types/skeleton.ts -/

/-- `EasingType` from types/skeleton.ts: the named presets or an explicit
cubic-bezier control-point 4-tuple. -/
inductive EasingType where
  | linear
  | easeIn
  | easeOut
  | easeInOut
  | step
  | bezier (p0 p1 p2 p3 : ℝ)

/-- `Bone` from types/skeleton.ts. -/
structure Bone where
  id : String
  name : String
  parentId : Option String
  x : ℝ
  y : ℝ
  rotation : ℝ
  scaleX : ℝ
  scaleY : ℝ
  length : ℝ
  pivotX : ℝ
  pivotY : ℝ
deriving DecidableEq

/-- `IKConstraint` from types/skeleton.ts. -/
structure IKConstraint where
  id : String
  name : String
  targetBoneId : String
  chainLength : ℕ
  targetX : ℝ
  targetY : ℝ
  bendPositive : Bool
  mix : ℝ
  enabled : Bool

/-- `Keyframe` from types/skeleton.ts: `time` and `easing` are required,
the pose properties are optional. -/
structure Keyframe where
  time : ℝ
  x : Option ℝ
  y : Option ℝ
  rotation : Option ℝ
  scaleX : Option ℝ
  scaleY : Option ℝ
  easing : EasingType

/-- The result type of `interpolateKeyframes` / `evaluateTrackAtTime`
(`Partial<Keyframe>` in the source): every property optional, including
`time` and `easing`. -/
structure PoseDelta where
  time : Option ℝ
  easing : Option EasingType
  x : Option ℝ
  y : Option ℝ
  rotation : Option ℝ
  scaleX : Option ℝ
  scaleY : Option ℝ

/-- A whole keyframe object viewed as a `Partial<Keyframe>` value, as when
the engine returns `keyframes[0]` itself: `time` and `easing` are present. -/
def keyframeDelta (k : Keyframe) : PoseDelta :=
  { time := some k.time, easing := some k.easing, x := k.x, y := k.y,
    rotation := k.rotation, scaleX := k.scaleX, scaleY := k.scaleY }

/-! ## engine/InterpolationEngine.ts

`getBezierEasing` compiles explicit control points with the external
`bezier-easing` npm package, whose solver is not part of this repository;
it enters the embedding as an abstract parameter `bez` (the module-level
cache of compiled curves is pure memoization and has no semantic effect).
-/

/-- `getBezierEasing` from engine/InterpolationEngine.ts, with the external
cubic-bezier solver abstracted as `bez`. -/
def getBezierEasing (bez : ℝ → ℝ → ℝ → ℝ → ℝ → ℝ) : EasingType → ℝ → ℝ
  | .linear => fun x => x
  | .step => fun x => if x < 1 then 0 else 1
  | .easeIn => bez 0.42 0 1 1
  | .easeOut => bez 0 0 0.58 1
  | .easeInOut => bez 0.42 0 0.58 1
  | .bezier p0 p1 p2 p3 => bez p0 p1 p2 p3

/-- `interpolateKeyframes` from engine/InterpolationEngine.ts: blend each
pose property present in both keyframes by the eased normalized progress;
rotation blends through `lerpAngle`.  (`k1.easing || 'linear'` in the
source is the identity here: `easing` is a required property.) -/
def interpolateKeyframes (bez : ℝ → ℝ → ℝ → ℝ → ℝ → ℝ)
    (k1 k2 : Keyframe) (time : ℝ) : PoseDelta :=
  let duration := k2.time - k1.time
  if duration ≤ 0 then keyframeDelta k1
  else
    let t := (time - k1.time) / duration
    let progress := getBezierEasing bez k1.easing t
    { time := none
      easing := none
      x := match k1.x, k2.x with
        | some a, some b => some (lerp a b progress)
        | _, _ => none
      y := match k1.y, k2.y with
        | some a, some b => some (lerp a b progress)
        | _, _ => none
      rotation := match k1.rotation, k2.rotation with
        | some a, some b => some (lerpAngle a b progress)
        | _, _ => none
      scaleX := match k1.scaleX, k2.scaleX with
        | some a, some b => some (lerp a b progress)
        | _, _ => none
      scaleY := match k1.scaleY, k2.scaleY with
        | some a, some b => some (lerp a b progress)
        | _, _ => none }

/-- The sort `keyframes.sort((a, b) => a.time - b.time)` performed by
`evaluateTrackAtTime`: a stable sort by time (insertion sort is stable,
matching the ECMAScript requirement on `Array.prototype.sort`). -/
def sortKeyframes (keyframes : List Keyframe) : List Keyframe :=
  List.insertionSort (fun a b => a.time ≤ b.time) keyframes

/-- The bracketing loop of `evaluateTrackAtTime`: the first adjacent pair
`(k1, k2)` with `k1.time ≤ time < k2.time` is interpolated. -/
def findBracket (bez : ℝ → ℝ → ℝ → ℝ → ℝ → ℝ) :
    List Keyframe → ℝ → Option PoseDelta
  | k1 :: k2 :: rest, time =>
    if k1.time ≤ time ∧ time < k2.time then
      some (interpolateKeyframes bez k1 k2 time)
    else findBracket bez (k2 :: rest) time
  | _, _ => none

/-- `evaluateTrackAtTime` from engine/InterpolationEngine.ts.  The source
checks `keyframes.length === 0` and then sorts in place; sorting preserves
emptiness, so the empty check is made on the sorted list.  The final
`return keyframes[keyframes.length - 1]` (unreachable fallback after the
loop) is the `Option.getD` default. -/
def evaluateTrackAtTime (bez : ℝ → ℝ → ℝ → ℝ → ℝ → ℝ)
    (keyframes : List Keyframe) (time : ℝ) : Option PoseDelta :=
  match sortKeyframes keyframes with
  | [] => none
  | k0 :: rest =>
    if time ≤ k0.time then some (keyframeDelta k0)
    else
      let lastKf := rest.getLastD k0
      if time ≥ lastKf.time then some (keyframeDelta lastKf)
      else some ((findBracket bez (k0 :: rest) time).getD (keyframeDelta lastKf))

/-! ## engine/IKSolver.ts -/

/-- `IKResult` from engine/IKSolver.ts: rotations in degrees and the
reachability flag. -/
structure IKResult where
  parentRotation : ℝ
  childRotation : ℝ
  reachable : Bool

/-- `WorldBone` from engine/IKSolver.ts. -/
structure WorldBone where
  bone : Bone
  worldX : ℝ
  worldY : ℝ
  worldRotation : ℝ

/-- Lookup in `new Map(bones.map(b => [b.id, b]))`: with duplicate ids the
last entry wins, hence the reversed search. -/
def mapGet (bones : List Bone) (i : String) : Option Bone :=
  bones.reverse.find? (fun b => b.id == i)

/-- The `while (current)` walk of `computeBoneChainWorld` collecting the
ancestor ids root-first (`unshift`).  The walk is fuelled: in a forest the
ancestors of a bone are pairwise distinct, so `bones.length + 1` steps
always suffice; on a cyclic parent graph the source loops forever. -/
def chainIdsGo (bones : List Bone) : ℕ → Option Bone → List String → List String
  | 0, _, acc => acc
  | _ + 1, none, acc => acc
  | fuel + 1, some b, acc =>
    chainIdsGo bones fuel (b.parentId.bind fun p => mapGet bones p) (b.id :: acc)

/-- The root-first list of ancestor ids of `targetBoneId` (itself included). -/
def chainIds (bones : List Bone) (targetBoneId : String) : List String :=
  chainIdsGo bones (bones.length + 1) (mapGet bones targetBoneId) []

/-- The accumulation loop of `computeBoneChainWorld`: thread the running
world position/rotation over the root-first id list, emitting one
`WorldBone` per id.  An id missing from the map is skipped (unreachable:
every id was collected from the map). -/
def chainWorldGo (bones : List Bone) :
    List String → ℝ → ℝ → ℝ → List WorldBone
  | [], _, _, _ => []
  | i :: rest, worldX, worldY, worldRotation =>
    match mapGet bones i with
    | none => chainWorldGo bones rest worldX worldY worldRotation
    | some bone =>
      let rad := worldRotation * Real.pi / 180
      let localX := bone.x * bone.scaleX
      let localY := bone.y * bone.scaleY
      let wx := worldX + (Real.cos rad * localX - Real.sin rad * localY)
      let wy := worldY + (Real.sin rad * localX + Real.cos rad * localY)
      let wr := worldRotation + bone.rotation
      ⟨bone, wx, wy, wr⟩ :: chainWorldGo bones rest wx wy wr

/-- `computeBoneChainWorld` from engine/IKSolver.ts. -/
def computeBoneChainWorld (bones : List Bone) (targetBoneId : String) :
    List WorldBone :=
  chainWorldGo bones (chainIds bones targetBoneId) 0 0 0

/-- The reachability clamp of `solve2BoneIK` (lines 100–114): clamp the
origin-to-target distance into `[|a−b|, a+b]` with a 0.001 margin and
report reachability. -/
def ikClamp (parentLength childLength distance : ℝ) : ℝ × Bool :=
  let maxReach := parentLength + childLength
  let minReach := |parentLength - childLength|
  if distance > maxReach then (maxReach - 0.001, false)
  else if distance < minReach then (minReach + 0.001, false)
  else (distance, true)

/-- `solve2BoneIK` from engine/IKSolver.ts: law-of-cosines two-bone IK,
returning degrees. -/
def solve2BoneIK (parentLength childLength targetX targetY originX originY : ℝ)
    (bendPositive : Bool) : IKResult :=
  let dx := targetX - originX
  let dy := targetY - originY
  let distance := Real.sqrt (dx * dx + dy * dy)
  let angleToTarget := atan2 dy dx
  let clamped := ikClamp parentLength childLength distance
  let a := parentLength
  let b := childLength
  let c := clamped.1
  let cosAngleA := (a * a + c * c - b * b) / (2 * a * c)
  let angleA := Real.arccos (max (-1) (min 1 cosAngleA))
  let cosAngleB := (a * a + b * b - c * c) / (2 * a * b)
  let angleB := Real.arccos (max (-1) (min 1 cosAngleB))
  let parentRotation :=
    if bendPositive then angleToTarget + angleA else angleToTarget - angleA
  let childRotation :=
    if bendPositive then -(Real.pi - angleB) else Real.pi - angleB
  { parentRotation := parentRotation * 180 / Real.pi
    childRotation := childRotation * 180 / Real.pi
    reachable := clamped.2 }

/-- `applyIKConstraint` from engine/IKSolver.ts.  The origin assignments of
lines 188–201 are dead code (unconditionally overwritten at lines 205–206
by the parent world position), so only the final assignment is modelled.
The empty-chain case is unreachable: the chain of a bone found in the map
is nonempty. -/
def applyIKConstraint (bones : List Bone) (constraint : IKConstraint) :
    List Bone :=
  if ¬constraint.enabled ∨ constraint.mix = 0 then bones
  else
    match mapGet bones constraint.targetBoneId with
    | none => bones
    | some endBone =>
      if constraint.chainLength ≠ 2 then bones
      else
        match endBone.parentId.bind fun p => mapGet bones p with
        | none => bones
        | some parentBone =>
          match (computeBoneChainWorld bones parentBone.id).getLast? with
          | none => bones
          | some parentWorld =>
            let originX := parentWorld.worldX
            let originY := parentWorld.worldY
            let result := solve2BoneIK parentBone.length endBone.length
              constraint.targetX constraint.targetY originX originY
              constraint.bendPositive
            let mix := constraint.mix
            let parentAncestorRotation :=
              parentWorld.worldRotation - parentBone.rotation
            let targetParentRotation :=
              result.parentRotation - parentAncestorRotation
            bones.map fun b =>
              if b.id == parentBone.id then
                { b with rotation :=
                    b.rotation + (targetParentRotation - b.rotation) * mix }
              else if b.id == endBone.id then
                { b with rotation :=
                    b.rotation + (result.childRotation - b.rotation) * mix }
              else b

/-- `applyAllIKConstraints` from engine/IKSolver.ts: sequential fold, each
constraint seeing the bone list left by the previous one. -/
def applyAllIKConstraints (bones : List Bone) (constraints : List IKConstraint) :
    List Bone :=
  constraints.foldl applyIKConstraint bones

/-! ## stores/rigStore.ts — reparentBone -/

/-- `bones.find(b => b.id === i)`: first match wins. -/
def findBone (bones : List Bone) (i : String) : Option Bone :=
  bones.find? (fun b => b.id == i)

/-- One step of the ancestor walk of `reparentBone`:
`current = skeleton.bones.find(b => b.id === current?.parentId)`. -/
def walk (bones : List Bone) : Option Bone → Option Bone
  | none => none
  | some b =>
    match b.parentId with
    | none => none
    | some p => findBone bones p

/-- The descendant check of `reparentBone`: walk the ancestors of the
proposed parent and report whether a bone with id `target` is met.  The
walk is fuelled; exhausted fuel (impossible in a forest within
`bones.length + 1` steps) conservatively reports a hit. -/
def hitsLoop (bones : List Bone) (target : String) : ℕ → Option Bone → Bool
  | 0, _ => true
  | _ + 1, none => false
  | fuel + 1, some b =>
    if b.id == target then true
    else hitsLoop bones target fuel (walk bones (some b))

/-- The per-bone body of `reparentBone`'s state update:
`b.id === boneId ? { ...b, parentId: newParentId } : b`. -/
def reparentFix (boneId : String) (newParentId : Option String) (b : Bone) :
    Bone :=
  if b.id == boneId then { b with parentId := newParentId } else b

/-- The state update of `reparentBone`: set the parent of every bone whose
id is `boneId`. -/
def reparentUpdate (bones : List Bone) (boneId : String)
    (newParentId : Option String) : List Bone :=
  bones.map (reparentFix boneId newParentId)

/-- The parent graph of `bones` is a forest: from every bone the ancestor
walk (the lookup walk `reparentBone` performs) reaches a root in finitely
many steps. -/
def Forest (bones : List Bone) : Prop :=
  ∀ b ∈ bones, ∃ k, (walk bones)^[k] (some b) = none

/-- The bone named `np` is `target` itself or one of its descendants:
walking the ancestors from `np` meets a bone with id `target`. -/
def IsDescendantOf (bones : List Bone) (np target : String) : Prop :=
  ∃ j, ((walk bones)^[j] (findBone bones np)).map (fun b => b.id) = some target

/-- `reparentBone` from stores/rigStore.ts, restricted to the bone list it
touches.  The Boolean result records whether the update was applied
(`false` = rejected with the "cannot reparent bone to its own descendant"
warning, bones returned unchanged). -/
def reparentBone (bones : List Bone) (boneId : String)
    (newParentId : Option String) : List Bone × Bool :=
  match newParentId with
  | none => (reparentUpdate bones boneId none, true)
  | some p =>
    if hitsLoop bones boneId (bones.length + 1) (findBone bones p) then
      (bones, false)
    else (reparentUpdate bones boneId (some p), true)

/-! ## stores/rigStore.ts — setRigTime -/

/-- The object produced by `{ ...bone, ...evalResult }` in `setRigTime`:
the bone's properties, each overridden when present in the evaluation
result, plus the `time` and `easing` properties the result may carry. -/
structure SpreadBone where
  id : String
  name : String
  parentId : Option String
  x : ℝ
  y : ℝ
  rotation : ℝ
  scaleX : ℝ
  scaleY : ℝ
  length : ℝ
  pivotX : ℝ
  pivotY : ℝ
  time : Option ℝ
  easing : Option EasingType

/-- A plain bone viewed as a spread result (no extra properties). -/
def boneSpread (b : Bone) : SpreadBone :=
  { id := b.id, name := b.name, parentId := b.parentId, x := b.x, y := b.y,
    rotation := b.rotation, scaleX := b.scaleX, scaleY := b.scaleY,
    length := b.length, pivotX := b.pivotX, pivotY := b.pivotY,
    time := none, easing := none }

/-- `{ ...bone, ...evalResult }`: properties present in the delta override
the bone's, and the delta's `time`/`easing` (when present) ride along. -/
def spreadDelta (b : Bone) (p : PoseDelta) : SpreadBone :=
  { id := b.id, name := b.name, parentId := b.parentId,
    x := p.x.getD b.x, y := p.y.getD b.y,
    rotation := p.rotation.getD b.rotation,
    scaleX := p.scaleX.getD b.scaleX, scaleY := p.scaleY.getD b.scaleY,
    length := b.length, pivotX := b.pivotX, pivotY := b.pivotY,
    time := p.time, easing := p.easing }

/-- The per-bone body of `setRigTime` (lines 300–308 of rigStore.ts): no
track or a null evaluation leaves the bone unchanged, otherwise the
evaluation result is spread over the bone. -/
def setRigTimeBone (bez : ℝ → ℝ → ℝ → ℝ → ℝ → ℝ) (bone : Bone)
    (track : Option (List Keyframe)) (time : ℝ) : SpreadBone :=
  match track with
  | none => boneSpread bone
  | some kfs =>
    match evaluateTrackAtTime bez kfs time with
    | none => boneSpread bone
    | some p => spreadDelta bone p

/-! ## utils/autoRig.ts — mask analyzer

The raster mask is modelled as its dimensions and the alpha byte of each
pixel (`imageData[(y*width+x)*4+3]` in the source); decoding the data URL
and the canvas plumbing are outside the model.
-/

/-- A 2-D point (`Point` in utils/autoRig.ts). -/
structure Point where
  x : ℝ
  y : ℝ

/-- `BodyRow` from utils/autoRig.ts: one populated cross-sectional bin. -/
structure BodyRow where
  t : ℝ
  meanS : ℝ
  minS : ℝ
  maxS : ℝ
  width : ℝ
  count : ℕ
  ratio : ℝ

/-- `BoneSegment` from utils/autoRig.ts (`end` is a Lean keyword, renamed
`stop`). -/
structure BoneSegment where
  key : String
  name : String
  parentKey : Option String
  start : Point
  stop : Point

/-- The 16 anatomical joints of the layout. -/
structure RigJoints where
  pelvis : Point
  chest : Point
  neck : Point
  headTop : Point
  leftShoulder : Point
  rightShoulder : Point
  leftElbow : Point
  rightElbow : Point
  leftHand : Point
  rightHand : Point
  leftHip : Point
  rightHip : Point
  leftKnee : Point
  rightKnee : Point
  leftFoot : Point
  rightFoot : Point

/-- `AutoRigLayout` from utils/autoRig.ts. -/
structure AutoRigLayout where
  width : ℕ
  height : ℕ
  bodyHeight : ℝ
  shoulderWidth : ℝ
  hipWidth : ℝ
  joints : RigJoints
  segments : List BoneSegment

/-- `AutoRigBone` from utils/autoRig.ts. -/
structure AutoRigBone where
  key : String
  parentKey : Option String
  name : String
  x : ℝ
  y : ℝ
  rotation : ℝ
  length : ℝ
  scaleX : ℝ
  scaleY : ℝ
  pivotX : ℝ
  pivotY : ℝ

/-- An alpha-channel raster mask. -/
structure MaskImage where
  width : ℕ
  height : ℕ
  alpha : ℕ → ℕ → ℕ

/-- `dist` from utils/autoRig.ts. -/
def dist (a b : Point) : ℝ := hypot (b.x - a.x) (b.y - a.y)

/-- `normalize` from utils/autoRig.ts. -/
def normalize (v fallback : Point) : Point :=
  let len := hypot v.x v.y
  if len < 1e-6 then
    let fallbackLen := hypot fallback.x fallback.y
    if fallbackLen < 1e-6 then ⟨1, 0⟩
    else ⟨fallback.x / fallbackLen, fallback.y / fallbackLen⟩
  else ⟨v.x / len, v.y / len⟩

/-- `rotate` from utils/autoRig.ts. -/
def rotate (p : Point) (radians : ℝ) : Point :=
  let c := Real.cos radians
  let s := Real.sin radians
  ⟨p.x * c - p.y * s, p.x * s + p.y * c⟩

/-- `toDeg` from utils/autoRig.ts. -/
def toDeg (rad : ℝ) : ℝ := rad * 180 / Real.pi

/-- `normalizeDeg` from utils/autoRig.ts: the two while loops shift by 360
until the value lies in `(-180, 180]`; their result is the unique such
representative, written in closed form. -/
def normalizeDeg (angle : ℝ) : ℝ := angle - 360 * (⌈angle / 360 - 1 / 2⌉ : ℤ)

/-- `ensureMinLength` from utils/autoRig.ts. -/
def ensureMinLength (start stop : Point) (minLength : ℝ) (fallbackDir : Point) :
    Point :=
  let current := dist start stop
  if current ≥ minLength then stop
  else
    let dir := normalize ⟨stop.x - start.x, stop.y - start.y⟩ fallbackDir
    ⟨start.x + dir.x * minLength, start.y + dir.y * minLength⟩

/-- `selectRowByWidth` from utils/autoRig.ts: widest row within the ratio
band (`reduce` with the first in-range row as initial value). -/
def selectRowByWidth (rows : List BodyRow) (minRatio maxRatio : ℝ) :
    Option BodyRow :=
  match rows.filter fun row => decide (row.ratio ≥ minRatio ∧ row.ratio ≤ maxRatio) with
  | [] => none
  | r :: rest =>
    some ((r :: rest).foldl (fun best row => if row.width > best.width then row else best) r)

/-- A junk row for the unreachable empty case of `selectRowNearest` (the
source's `reduce` would throw on an empty array; the caller guarantees at
least 10 rows). -/
def defaultBodyRow : BodyRow := ⟨0, 0, 0, 0, 0, 0, 0⟩

/-- `selectRowNearest` from utils/autoRig.ts. -/
def selectRowNearest (rows : List BodyRow) (targetRatio : ℝ) : BodyRow :=
  match rows with
  | [] => defaultBodyRow
  | r :: rest =>
    rest.foldl
      (fun best row =>
        if |row.ratio - targetRatio| < |best.ratio - targetRatio| then row else best) r

/-- `sidePointsByScreenX` from utils/autoRig.ts: `(left, right)` ordered by
screen x. -/
def sidePointsByScreenX (a b : Point) : Point × Point :=
  if a.x ≤ b.x then (a, b) else (b, a)

/-- `weightedAverage` from `buildLayoutFromMask`, over `(value, weight)`
pairs. -/
def weightedAverage (values : List (ℝ × ℝ)) (fallback : ℝ) : ℝ :=
  let weight := (values.map Prod.snd).sum
  if weight ≤ 0 then fallback
  else (values.map fun v => v.1 * v.2).sum / weight

/-- Running min/max over a list (the source's `minT = Infinity / maxT =
-Infinity` accumulation); `none` for the empty list. -/
def foldMinMax (l : List ℝ) : Option (ℝ × ℝ) :=
  l.foldl
    (fun acc v =>
      match acc with
      | none => some (v, v)
      | some mm => some (min mm.1 v, max mm.2 v))
    none

/-- The opaque pixels of the mask, in the scan order of the source (rows
outer, columns inner): pixels whose alpha exceeds the threshold. -/
def opaquePixels (m : MaskImage) (alphaThreshold : ℝ) : List (ℕ × ℕ) :=
  (List.range m.height).flatMap fun y =>
    (List.range m.width).filterMap fun x =>
      if (m.alpha x y : ℝ) > alphaThreshold then some (x, y) else none

/-- Sum of `f` over the opaque pixels. -/
def pixSum (m : MaskImage) (thr : ℝ) (f : ℕ → ℕ → ℝ) : ℝ :=
  ((opaquePixels m thr).map fun p => f p.1 p.2).sum

/-- Centroid x. -/
def maskCx (m : MaskImage) (thr : ℝ) : ℝ :=
  pixSum m thr (fun x _ => (x : ℝ)) / (opaquePixels m thr).length

/-- Centroid y. -/
def maskCy (m : MaskImage) (thr : ℝ) : ℝ :=
  pixSum m thr (fun _ y => (y : ℝ)) / (opaquePixels m thr).length

/-- `varXX = sumXX/count - cx²`. -/
def maskVarXX (m : MaskImage) (thr : ℝ) : ℝ :=
  pixSum m thr (fun x _ => (x : ℝ) * x) / (opaquePixels m thr).length
    - maskCx m thr * maskCx m thr

/-- `varYY = sumYY/count - cy²`. -/
def maskVarYY (m : MaskImage) (thr : ℝ) : ℝ :=
  pixSum m thr (fun _ y => (y : ℝ) * y) / (opaquePixels m thr).length
    - maskCy m thr * maskCy m thr

/-- `covXY = sumXY/count - cx·cy`. -/
def maskCovXY (m : MaskImage) (thr : ℝ) : ℝ :=
  pixSum m thr (fun x y => (x : ℝ) * y) / (opaquePixels m thr).length
    - maskCx m thr * maskCy m thr

/-- `theta = 0.5 * atan2(2*covXY, varXX - varYY)`. -/
def maskTheta (m : MaskImage) (thr : ℝ) : ℝ :=
  0.5 * atan2 (2 * maskCovXY m thr) (maskVarXX m thr - maskVarYY m thr)

/-- The principal axis before orientation disambiguation. -/
def maskAxis0 (m : MaskImage) (thr : ℝ) : Point :=
  ⟨Real.cos (maskTheta m thr), Real.sin (maskTheta m thr)⟩

/-- Projection of a pixel onto an axis through the centroid. -/
def projCoord (cx cy : ℝ) (axis : Point) (p : ℕ × ℕ) : ℝ :=
  ((p.1 : ℝ) - cx) * axis.x + ((p.2 : ℝ) - cy) * axis.y

/-- `(minT, maxT)` along the initial axis; `(0, 0)` only for a pixel-free
mask (unreachable: the caller has checked `count ≥ 100`). -/
def maskMinMaxT0 (m : MaskImage) (thr : ℝ) : ℝ × ℝ :=
  (foldMinMax ((opaquePixels m thr).map
    (projCoord (maskCx m thr) (maskCy m thr) (maskAxis0 m thr)))).getD (0, 0)

/-- `tSpan = max(1, maxT - minT)`. -/
def maskTSpan (m : MaskImage) (thr : ℝ) : ℝ :=
  max 1 ((maskMinMaxT0 m thr).2 - (maskMinMaxT0 m thr).1)

/-- `sampleBand = max(2, tSpan * 0.1)`. -/
def maskSampleBand (m : MaskImage) (thr : ℝ) : ℝ :=
  max 2 (maskTSpan m thr * 0.1)

/-- Opaque pixels in the band at the head end of the initial axis. -/
def maskHeadPixels (m : MaskImage) (thr : ℝ) : List (ℕ × ℕ) :=
  (opaquePixels m thr).filter fun p =>
    decide (projCoord (maskCx m thr) (maskCy m thr) (maskAxis0 m thr) p
      ≤ (maskMinMaxT0 m thr).1 + maskSampleBand m thr)

/-- Opaque pixels in the band at the foot end of the initial axis. -/
def maskFootPixels (m : MaskImage) (thr : ℝ) : List (ℕ × ℕ) :=
  (opaquePixels m thr).filter fun p =>
    decide (projCoord (maskCx m thr) (maskCy m thr) (maskAxis0 m thr) p
      ≥ (maskMinMaxT0 m thr).2 - maskSampleBand m thr)

/-- The head-down test: both bands populated and the mean pixel row of the
foot band above (smaller than) the head band's. -/
def maskFlipped (m : MaskImage) (thr : ℝ) : Prop :=
  (maskHeadPixels m thr).length > 0 ∧ (maskFootPixels m thr).length > 0 ∧
    ((maskFootPixels m thr).map fun p => (p.2 : ℝ)).sum / (maskFootPixels m thr).length
      < ((maskHeadPixels m thr).map fun p => (p.2 : ℝ)).sum / (maskHeadPixels m thr).length

instance (m : MaskImage) (thr : ℝ) : Decidable (maskFlipped m thr) := by
  unfold maskFlipped; infer_instance

/-- The oriented major axis (flipped if the analyzer pointed head-down). -/
def maskAxisT (m : MaskImage) (thr : ℝ) : Point :=
  if maskFlipped m thr then ⟨-(maskAxis0 m thr).x, -(maskAxis0 m thr).y⟩
  else maskAxis0 m thr

/-- `minT` along the oriented axis. -/
def maskMinT (m : MaskImage) (thr : ℝ) : ℝ :=
  if maskFlipped m thr then -(maskMinMaxT0 m thr).2 else (maskMinMaxT0 m thr).1

/-- `maxT` along the oriented axis. -/
def maskMaxT (m : MaskImage) (thr : ℝ) : ℝ :=
  if maskFlipped m thr then -(maskMinMaxT0 m thr).1 else (maskMinMaxT0 m thr).2

/-- The minor axis `(-axisT.y, axisT.x)`. -/
def maskAxisS (m : MaskImage) (thr : ℝ) : Point :=
  ⟨-(maskAxisT m thr).y, (maskAxisT m thr).x⟩

/-- `bodyHeight = max(12, maxT - minT)`. -/
def maskBodyHeight (m : MaskImage) (thr : ℝ) : ℝ :=
  max 12 (maskMaxT m thr - maskMinT m thr)

/-- `binCount = clamp(Math.round(bodyHeight), 64, 2048)`. -/
def maskBinCount (m : MaskImage) (thr : ℝ) : ℕ :=
  (max 64 (min 2048 ⌊maskBodyHeight m thr + 1 / 2⌋)).toNat

/-- `binSize = bodyHeight / binCount`. -/
def maskBinSize (m : MaskImage) (thr : ℝ) : ℝ :=
  maskBodyHeight m thr / maskBinCount m thr

/-- The bin index of a pixel: `clamp(⌊(t - minT)/binSize⌋, 0, binCount-1)`. -/
def maskBinIdx (m : MaskImage) (thr : ℝ) (p : ℕ × ℕ) : ℕ :=
  (max 0 (min ((maskBinCount m thr : ℤ) - 1)
    ⌊(projCoord (maskCx m thr) (maskCy m thr) (maskAxisT m thr) p - maskMinT m thr)
      / maskBinSize m thr⌋)).toNat

/-- The opaque pixels falling into bin `i`. -/
def binPixelsAt (m : MaskImage) (thr : ℝ) (i : ℕ) : List (ℕ × ℕ) :=
  (opaquePixels m thr).filter fun p => decide (maskBinIdx m thr p = i)

/-- The `BodyRow` of bin `i`, if the bin is populated. -/
def maskRowOfBin (m : MaskImage) (thr : ℝ) (i : ℕ) : Option BodyRow :=
  match binPixelsAt m thr i with
  | [] => none
  | p :: rest =>
    let ps := p :: rest
    let cnt := ps.length
    let ts := ps.map (projCoord (maskCx m thr) (maskCy m thr) (maskAxisT m thr))
    let ss := ps.map (projCoord (maskCx m thr) (maskCy m thr) (maskAxisS m thr))
    let t := ts.sum / cnt
    let mm := (foldMinMax ss).getD (0, 0)
    some
      { t := t, meanS := ss.sum / cnt, minS := mm.1, maxS := mm.2,
        width := max 1 (mm.2 - mm.1), count := cnt,
        ratio := clamp ((t - maskMinT m thr) / maskBodyHeight m thr) 0 1 }

/-- The populated rows, in bin order (the state of `rows` at the
`rows.length < 10` check, before sorting). -/
def maskRows (m : MaskImage) (thr : ℝ) : List BodyRow :=
  (List.range (maskBinCount m thr)).filterMap (maskRowOfBin m thr)

/-- `rows.sort((a, b) => a.t - b.t)`. -/
def maskRowsSorted (m : MaskImage) (thr : ℝ) : List BodyRow :=
  List.insertionSort (fun a b => a.t ≤ b.t) (maskRows m thr)

/-- The shoulder row: widest within ratio band `[0.18, 0.4]`, else nearest
to ratio 0.28. -/
def maskShoulderRow (m : MaskImage) (thr : ℝ) : BodyRow :=
  (selectRowByWidth (maskRowsSorted m thr) 0.18 0.4).getD
    (selectRowNearest (maskRowsSorted m thr) 0.28)

/-- The hip row: widest within ratio band `[0.48, 0.74]`, else nearest to
ratio 0.6. -/
def maskHipRow (m : MaskImage) (thr : ℝ) : BodyRow :=
  (selectRowByWidth (maskRowsSorted m thr) 0.48 0.74).getD
    (selectRowNearest (maskRowsSorted m thr) 0.6)

/-- `shoulderWidth = max(shoulderRow.width, bodyHeight * 0.2)`. -/
def maskShoulderWidth (m : MaskImage) (thr : ℝ) : ℝ :=
  max (maskShoulderRow m thr).width (maskBodyHeight m thr * 0.2)

/-- `hipWidth = max(hipRow.width, bodyHeight * 0.16)`. -/
def maskHipWidth (m : MaskImage) (thr : ℝ) : ℝ :=
  max (maskHipRow m thr).width (maskBodyHeight m thr * 0.16)

/-- Landmark extraction of `buildLayoutFromMask` (lines 401–552): the 16
joints derived from the profiled rows. -/
def maskLayoutJoints (m : MaskImage) (thr : ℝ) : RigJoints :=
  let rows := maskRowsSorted m thr
  let minT := maskMinT m thr
  let maxT := maskMaxT m thr
  let axisT := maskAxisT m thr
  let axisS := maskAxisS m thr
  let cx := maskCx m thr
  let cy := maskCy m thr
  let bodyHeight := maskBodyHeight m thr
  let shoulderRow := maskShoulderRow m thr
  let hipRow := maskHipRow m thr
  let footRows := rows.filter fun row => decide (row.ratio ≥ 0.88)
  let handRows := rows.filter fun row =>
    decide (row.ratio ≥ shoulderRow.ratio - 0.03 ∧ row.ratio ≤ 0.82)
  let footT := weightedAverage (footRows.map fun row => (row.t, (row.count : ℝ))) maxT
  let footMinS := weightedAverage (footRows.map fun row => (row.minS, (row.count : ℝ)))
    (hipRow.meanS - hipRow.width * 0.3)
  let footMaxS := weightedAverage (footRows.map fun row => (row.maxS, (row.count : ℝ)))
    (hipRow.meanS + hipRow.width * 0.3)
  let handMin := handRows.foldl
    (fun acc row => if row.minS < acc.1 then (row.minS, row.t) else acc)
    (shoulderRow.minS, shoulderRow.t)
  let handMax := handRows.foldl
    (fun acc row => if row.maxS > acc.1 then (row.maxS, row.t) else acc)
    (shoulderRow.maxS, shoulderRow.t)
  let shoulderWidth := maskShoulderWidth m thr
  let hipWidth := maskHipWidth m thr
  let shoulderHalf := shoulderWidth * 0.26
  let hipHalf := hipWidth * 0.22
  let minArmReach := bodyHeight * 0.12
  let shoulderCenterS := shoulderRow.meanS
  let hipCenterS := hipRow.meanS
  let tShoulder := shoulderRow.t
  let tHip := max hipRow.t (tShoulder + bodyHeight * 0.14)
  let tNeck := clamp (tShoulder - bodyHeight * 0.1) (minT + bodyHeight * 0.02)
    (tShoulder - bodyHeight * 0.02)
  let tHeadTop := max minT (tNeck - bodyHeight * 0.16)
  let tFoot := max footT (tHip + bodyHeight * 0.25)
  let sideMinShoulder := (shoulderCenterS - shoulderHalf, tShoulder)
  let sideMaxShoulder := (shoulderCenterS + shoulderHalf, tShoulder)
  let sideMinHip := (hipCenterS - hipHalf, tHip)
  let sideMaxHip := (hipCenterS + hipHalf, tHip)
  let handMinS := min handMin.1 (sideMinShoulder.1 - minArmReach)
  let handMaxS := max handMax.1 (sideMaxShoulder.1 + minArmReach)
  let handMinT := clamp handMin.2 (tShoulder + bodyHeight * 0.03)
    (tHip + bodyHeight * 0.22)
  let handMaxT := clamp handMax.2 (tShoulder + bodyHeight * 0.03)
    (tHip + bodyHeight * 0.22)
  let sideMinHand := (handMinS, handMinT)
  let sideMaxHand := (handMaxS, handMaxT)
  let sideMinFoot := (footMinS, tFoot)
  let sideMaxFoot := (footMaxS, tFoot)
  let sideMinElbow := (lerp sideMinShoulder.1 sideMinHand.1 0.52 - bodyHeight * 0.04,
    lerp sideMinShoulder.2 sideMinHand.2 0.5 + bodyHeight * 0.035)
  let sideMaxElbow := (lerp sideMaxShoulder.1 sideMaxHand.1 0.52 + bodyHeight * 0.04,
    lerp sideMaxShoulder.2 sideMaxHand.2 0.5 + bodyHeight * 0.035)
  let sideMinKnee := (lerp sideMinHip.1 sideMinFoot.1 0.48 - bodyHeight * 0.03,
    lerp sideMinHip.2 sideMinFoot.2 0.5 - bodyHeight * 0.015)
  let sideMaxKnee := (lerp sideMaxHip.1 sideMaxFoot.1 0.48 + bodyHeight * 0.03,
    lerp sideMaxHip.2 sideMaxFoot.2 0.5 - bodyHeight * 0.015)
  let toWorld := fun (s t : ℝ) =>
    (⟨cx + axisS.x * s + axisT.x * t, cy + axisS.y * s + axisT.y * t⟩ : Point)
  let pelvis := toWorld hipCenterS tHip
  let chest := toWorld shoulderCenterS tShoulder
  let neck := toWorld shoulderCenterS tNeck
  let headTop := toWorld shoulderCenterS tHeadTop
  let shoulders := sidePointsByScreenX (toWorld sideMinShoulder.1 sideMinShoulder.2)
    (toWorld sideMaxShoulder.1 sideMaxShoulder.2)
  let elbows := sidePointsByScreenX (toWorld sideMinElbow.1 sideMinElbow.2)
    (toWorld sideMaxElbow.1 sideMaxElbow.2)
  let hands := sidePointsByScreenX (toWorld sideMinHand.1 sideMinHand.2)
    (toWorld sideMaxHand.1 sideMaxHand.2)
  let hips := sidePointsByScreenX (toWorld sideMinHip.1 sideMinHip.2)
    (toWorld sideMaxHip.1 sideMaxHip.2)
  let knees := sidePointsByScreenX (toWorld sideMinKnee.1 sideMinKnee.2)
    (toWorld sideMaxKnee.1 sideMaxKnee.2)
  let feet := sidePointsByScreenX (toWorld sideMinFoot.1 sideMinFoot.2)
    (toWorld sideMaxFoot.1 sideMaxFoot.2)
  let minBoneLength := max 8 (bodyHeight * 0.035)
  let torsoDir := normalize ⟨chest.x - pelvis.x, chest.y - pelvis.y⟩ axisT
  let downDir : Point := ⟨-torsoDir.x, -torsoDir.y⟩
  let leftDir := normalize ⟨shoulders.1.x - chest.x, shoulders.1.y - chest.y⟩
    ⟨-axisS.x, -axisS.y⟩
  let rightDir := normalize ⟨shoulders.2.x - chest.x, shoulders.2.y - chest.y⟩ axisS
  let fixedChest := ensureMinLength pelvis chest minBoneLength torsoDir
  let fixedNeck := ensureMinLength fixedChest neck (minBoneLength * 0.6) torsoDir
  let fixedHead := ensureMinLength fixedNeck headTop (minBoneLength * 0.8) torsoDir
  let fixedLeftElbow := ensureMinLength shoulders.1 elbows.1 minBoneLength leftDir
  let fixedLeftHand := ensureMinLength fixedLeftElbow hands.1 minBoneLength leftDir
  let fixedRightElbow := ensureMinLength shoulders.2 elbows.2 minBoneLength rightDir
  let fixedRightHand := ensureMinLength fixedRightElbow hands.2 minBoneLength rightDir
  let fixedLeftKnee := ensureMinLength hips.1 knees.1 minBoneLength downDir
  let fixedLeftFoot := ensureMinLength fixedLeftKnee feet.1 minBoneLength downDir
  let fixedRightKnee := ensureMinLength hips.2 knees.2 minBoneLength downDir
  let fixedRightFoot := ensureMinLength fixedRightKnee feet.2 minBoneLength downDir
  { pelvis := pelvis, chest := fixedChest, neck := fixedNeck, headTop := fixedHead,
    leftShoulder := shoulders.1, rightShoulder := shoulders.2,
    leftElbow := fixedLeftElbow, rightElbow := fixedRightElbow,
    leftHand := fixedLeftHand, rightHand := fixedRightHand,
    leftHip := hips.1, rightHip := hips.2,
    leftKnee := fixedLeftKnee, rightKnee := fixedRightKnee,
    leftFoot := fixedLeftFoot, rightFoot := fixedRightFoot }

/-- The fixed 11-segment list built from the joints (lines 554–566 of
utils/autoRig.ts), verbatim. -/
def segmentsFromJoints (j : RigJoints) : List BoneSegment :=
  [ { key := "root", name := "Root", parentKey := none,
      start := j.pelvis, stop := j.chest },
    { key := "spine", name := "Spine", parentKey := some "root",
      start := j.chest, stop := j.neck },
    { key := "head", name := "Head", parentKey := some "spine",
      start := j.neck, stop := j.headTop },
    { key := "upper_arm_l", name := "UpperArm_L", parentKey := some "spine",
      start := j.leftShoulder, stop := j.leftElbow },
    { key := "lower_arm_l", name := "LowerArm_L", parentKey := some "upper_arm_l",
      start := j.leftElbow, stop := j.leftHand },
    { key := "upper_arm_r", name := "UpperArm_R", parentKey := some "spine",
      start := j.rightShoulder, stop := j.rightElbow },
    { key := "lower_arm_r", name := "LowerArm_R", parentKey := some "upper_arm_r",
      start := j.rightElbow, stop := j.rightHand },
    { key := "upper_leg_l", name := "UpperLeg_L", parentKey := some "root",
      start := j.leftHip, stop := j.leftKnee },
    { key := "lower_leg_l", name := "LowerLeg_L", parentKey := some "upper_leg_l",
      start := j.leftKnee, stop := j.leftFoot },
    { key := "upper_leg_r", name := "UpperLeg_R", parentKey := some "root",
      start := j.rightHip, stop := j.rightKnee },
    { key := "lower_leg_r", name := "LowerLeg_R", parentKey := some "upper_leg_r",
      start := j.rightKnee, stop := j.rightFoot } ]

/-- `buildLayoutFromMask` from utils/autoRig.ts: the two validation guards
and, when both pass, the derived layout.  A thrown `Error` is an
`Except.error` carrying the message. -/
def buildLayoutFromMask (m : MaskImage) (alphaThreshold : ℝ) :
    Except String AutoRigLayout :=
  if (opaquePixels m alphaThreshold).length < 100 then
    Except.error "Not enough opaque pixels. Try turning off AI segmentation or use a cleaner PNG."
  else if (maskRows m alphaThreshold).length < 10 then
    Except.error "Mask analysis failed. Try a larger source image."
  else
    Except.ok
      { width := m.width, height := m.height,
        bodyHeight := maskBodyHeight m alphaThreshold,
        shoulderWidth := maskShoulderWidth m alphaThreshold,
        hipWidth := maskHipWidth m alphaThreshold,
        joints := maskLayoutJoints m alphaThreshold,
        segments := segmentsFromJoints (maskLayoutJoints m alphaThreshold) }

/-- The per-segment record of the `resolved` map of
`convertSegmentsToBones` (a JavaScript `Map`: with duplicate keys the last
`set` wins, hence the reversed search). -/
structure ResolvedSeg where
  segment : BoneSegment
  angle : ℝ
  length : ℝ

/-- Lookup in the `resolved` map. -/
def resolvedGet (segments : List BoneSegment) (k : String) : Option ResolvedSeg :=
  (segments.reverse.find? fun s => s.key == k).map fun s =>
    let dx := s.stop.x - s.start.x
    let dy := s.stop.y - s.start.y
    ⟨s, atan2 dy dx, max 1 (hypot dx dy)⟩

/-- `convertSegmentsToBones` from utils/autoRig.ts. -/
def convertSegmentsToBones (segments : List BoneSegment) : List AutoRigBone :=
  segments.filterMap fun segment =>
    match resolvedGet segments segment.key with
    | none => none
    | some own =>
      match segment.parentKey with
      | none =>
        some
          { key := segment.key, parentKey := none, name := segment.name,
            x := jsRound segment.start.x, y := jsRound segment.start.y,
            rotation := jsRound (toDeg own.angle * 100) / 100,
            length := jsRound (own.length * 100) / 100,
            scaleX := 1, scaleY := 1, pivotX := 0, pivotY := 0.5 }
      | some pk =>
        match resolvedGet segments pk with
        | none => none
        | some parent =>
          let relative := rotate
            ⟨segment.start.x - parent.segment.start.x,
             segment.start.y - parent.segment.start.y⟩ (-parent.angle)
          some
            { key := segment.key, parentKey := some pk, name := segment.name,
              x := jsRound (relative.x * 100) / 100,
              y := jsRound (relative.y * 100) / 100,
              rotation := jsRound (normalizeDeg (toDeg (own.angle - parent.angle)) * 100) / 100,
              length := jsRound (own.length * 100) / 100,
              scaleX := 1, scaleY := 1, pivotX := 0, pivotY := 0.5 }

/-! ## Concrete instances used by witnesses and counterexamples -/

/-- A plain root bone. -/
def boneB1 : Bone :=
  { id := "b1", name := "B1", parentId := none, x := 0, y := 0, rotation := 0,
    scaleX := 1, scaleY := 1, length := 50, pivotX := 0, pivotY := 0.5 }

/-- A child of `boneB1`. -/
def boneB2 : Bone :=
  { id := "b2", name := "B2", parentId := some "b1", x := 50, y := 0, rotation := 0,
    scaleX := 1, scaleY := 1, length := 50, pivotX := 0, pivotY := 0.5 }

/-- A root bone with non-unit scale and nonzero position. -/
def boneScaled : Bone :=
  { id := "a", name := "A", parentId := none, x := 1, y := 0, rotation := 0,
    scaleX := 2, scaleY := 1, length := 10, pivotX := 0, pivotY := 0.5 }

/-- An enabled constraint with `mix = 0`. -/
def constraintMixZero : IKConstraint :=
  { id := "c1", name := "IK", targetBoneId := "b2", chainLength := 2,
    targetX := 10, targetY := 0, bendPositive := true, mix := 0, enabled := true }

/-- An enabled constraint with full mix but a 3-bone chain. -/
def constraintChain3 : IKConstraint :=
  { id := "c2", name := "IK3", targetBoneId := "b2", chainLength := 3,
    targetX := 10, targetY := 0, bendPositive := true, mix := 1, enabled := true }

/-- Keyframe `{time: 0, x: 0}` with linear easing. -/
def kfA : Keyframe :=
  { time := 0, x := some 0, y := none, rotation := none, scaleX := none,
    scaleY := none, easing := .linear }

/-- Keyframe `{time: 1000, x: 100}` with linear easing. -/
def kfB : Keyframe :=
  { time := 1000, x := some 100, y := none, rotation := none, scaleX := none,
    scaleY := none, easing := .linear }

/-- `kfA` with step easing. -/
def kfAStep : Keyframe :=
  { time := 0, x := some 0, y := none, rotation := none, scaleX := none,
    scaleY := none, easing := .step }

/-- Keyframe `{time: 0, rotation: 170}` with linear easing. -/
def kfRot170 : Keyframe :=
  { time := 0, x := none, y := none, rotation := some 170, scaleX := none,
    scaleY := none, easing := .linear }

/-- Keyframe `{time: 1000, rotation: -170}`. -/
def kfRotNeg170 : Keyframe :=
  { time := 1000, x := none, y := none, rotation := some (-170), scaleX := none,
    scaleY := none, easing := .linear }

/-- Keyframe `{time: 0, rotation: 0}` with linear easing. -/
def kfRot0 : Keyframe :=
  { time := 0, x := none, y := none, rotation := some 0, scaleX := none,
    scaleY := none, easing := .linear }

/-- Keyframe `{time: 1000, rotation: -180}`. -/
def kfRotNeg180 : Keyframe :=
  { time := 1000, x := none, y := none, rotation := some (-180), scaleX := none,
    scaleY := none, easing := .linear }

/-- A concrete stand-in for the external bezier solver (any function will
do: the claims below never depend on it). -/
def bezId : ℝ → ℝ → ℝ → ℝ → ℝ → ℝ := fun _ _ _ _ x => x

/-- A mask with no pixels at all. -/
def maskEmpty : MaskImage := ⟨0, 0, fun _ _ => 0⟩

/-- Joints collapsed to the origin. -/
def jointsZero : RigJoints :=
  ⟨⟨0, 0⟩, ⟨0, 0⟩, ⟨0, 0⟩, ⟨0, 0⟩, ⟨0, 0⟩, ⟨0, 0⟩, ⟨0, 0⟩, ⟨0, 0⟩,
   ⟨0, 0⟩, ⟨0, 0⟩, ⟨0, 0⟩, ⟨0, 0⟩, ⟨0, 0⟩, ⟨0, 0⟩, ⟨0, 0⟩, ⟨0, 0⟩⟩

end

/-! ## Theorems -/

/-- C6: an IK constraint that is disabled or has `mix = 0` is a strict
no-op: `applyIKConstraint` returns the very bone list it was given, and so
does `applyAllIKConstraints` over any list of such constraints. -/
theorem C6_mix_zero_noop :
    (∀ (bones : List Bone) (c : IKConstraint),
      c.mix = 0 ∨ c.enabled = false → applyIKConstraint bones c = bones) ∧
    (∀ (bones : List Bone) (cs : List IKConstraint),
      (∀ c ∈ cs, c.mix = 0 ∨ c.enabled = false) →
      applyAllIKConstraints bones cs = bones) := by
  have single : ∀ (bones : List Bone) (c : IKConstraint),
      c.mix = 0 ∨ c.enabled = false → applyIKConstraint bones c = bones := by
    intro bones c h
    unfold applyIKConstraint
    rw [if_pos]
    rcases h with h | h
    · exact Or.inr h
    · exact Or.inl (by simp [h])
  refine ⟨single, ?_⟩
  intro bones cs h
  induction cs generalizing bones with
  | nil => rfl
  | cons c rest ih =>
    have hc := h c (List.mem_cons_self c rest)
    have : applyAllIKConstraints bones (c :: rest) =
        applyAllIKConstraints (applyIKConstraint bones c) rest := rfl
    rw [this, single bones c hc]
    exact ih bones fun d hd => h d (List.mem_cons_of_mem c hd)

/-- Witness for C6 at a concrete skeleton and constraint. -/
theorem C6_mix_zero_noop_witness :
    applyIKConstraint [boneB1, boneB2] constraintMixZero = [boneB1, boneB2] ∧
    applyAllIKConstraints [boneB1, boneB2] [constraintMixZero] = [boneB1, boneB2] :=
  ⟨C6_mix_zero_noop.1 _ _ (Or.inl rfl),
   C6_mix_zero_noop.2 _ _ (by intro c hc; simp at hc; subst hc; exact Or.inl rfl)⟩

/-- C7: an enabled IK constraint whose `chainLength` is not 2 is rejected
(warning only) and the bone list is returned unchanged. -/
theorem C7_chain_not_two_rejected :
    ∀ (bones : List Bone) (c : IKConstraint),
      c.enabled = true → c.chainLength ≠ 2 → applyIKConstraint bones c = bones := by
  intro bones c _h1 h2
  unfold applyIKConstraint
  split
  · rfl
  · split
    · rfl
    · rfl

/-- Witness for C7 at a concrete skeleton and 3-bone constraint. -/
theorem C7_chain_not_two_rejected_witness :
    applyIKConstraint [boneB1, boneB2] constraintChain3 = [boneB1, boneB2] :=
  C7_chain_not_two_rejected _ _ rfl (by decide)

/-- C8: fewer than 100 opaque pixels, or fewer than 10 populated
cross-sectional bins, makes `buildLayoutFromMask` fail with the
corresponding descriptive error; the `Except.error` result carries no
layout, so no bones and no attachments can be produced from it. -/
theorem C8_insufficient_mask_fails :
    ∀ (m : MaskImage) (thr : ℝ),
      ((opaquePixels m thr).length < 100 →
        buildLayoutFromMask m thr =
          Except.error "Not enough opaque pixels. Try turning off AI segmentation or use a cleaner PNG.") ∧
      (¬(opaquePixels m thr).length < 100 → (maskRows m thr).length < 10 →
        buildLayoutFromMask m thr =
          Except.error "Mask analysis failed. Try a larger source image.") := by
  intro m thr
  constructor
  · intro h
    unfold buildLayoutFromMask
    rw [if_pos h]
  · intro h1 h2
    unfold buildLayoutFromMask
    rw [if_neg h1, if_pos h2]

/-- Witness for C8: the empty mask has 0 opaque pixels and fails. -/
theorem C8_insufficient_mask_fails_witness :
    buildLayoutFromMask maskEmpty 24 =
      Except.error "Not enough opaque pixels. Try turning off AI segmentation or use a cleaner PNG." :=
  (C8_insufficient_mask_fails maskEmpty 24).1 (by simp [opaquePixels, maskEmpty])

/-- The ECMAScript `atan2` never leaves `[-π, π]`. -/
theorem abs_atan2_le_pi (y x : ℝ) : |atan2 y x| ≤ Real.pi := by
  have hpi := Real.pi_pos
  unfold atan2
  split_ifs with h1 h2 h3 h4 h5
  · have ha := Real.arctan_lt_pi_div_two (y / x)
    have hb := Real.neg_pi_div_two_lt_arctan (y / x)
    rw [abs_le]; constructor <;> linarith
  · have hyx : y / x ≤ 0 := div_nonpos_iff.mpr (Or.inl ⟨h2.2, h2.1.le⟩)
    have ha : Real.arctan (y / x) ≤ 0 := by
      have h := Real.arctan_strictMono.monotone hyx
      simpa [Real.arctan_zero] using h
    have hb := Real.neg_pi_div_two_lt_arctan (y / x)
    rw [abs_le]; constructor <;> linarith
  · have hyx : 0 ≤ y / x := (div_pos_iff.mpr (Or.inr ⟨h3.2, h3.1⟩)).le
    have ha : 0 ≤ Real.arctan (y / x) := by
      have h := Real.arctan_strictMono.monotone hyx
      simpa [Real.arctan_zero] using h
    have hb := Real.arctan_lt_pi_div_two (y / x)
    rw [abs_le]; constructor <;> linarith
  · rw [abs_le]; constructor <;> linarith
  · rw [abs_le]; constructor <;> linarith
  · simpa using hpi.le

/-- `atan2 0 x = 0` for positive `x`. -/
theorem atan2_zero_of_pos {x : ℝ} (hx : 0 < x) : atan2 0 x = 0 := by
  unfold atan2
  rw [if_pos hx]
  simp [Real.arctan_zero]

/-- The parent rotation returned by the solver is at most 360° in absolute
value. -/
theorem solve2BoneIK_parent_bound (a b tx ty ox oy : ℝ) (bp : Bool) :
    |(solve2BoneIK a b tx ty ox oy bp).parentRotation| ≤ 360 := by
  have hpi := Real.pi_pos
  unfold solve2BoneIK
  dsimp only
  set t := atan2 (ty - oy) (tx - ox) with ht
  set A := Real.arccos (max (-1) (min 1
    ((a * a + (ikClamp a b (Real.sqrt ((tx - ox) * (tx - ox) + (ty - oy) * (ty - oy)))).1 *
        (ikClamp a b (Real.sqrt ((tx - ox) * (tx - ox) + (ty - oy) * (ty - oy)))).1 - b * b) /
      (2 * a * (ikClamp a b (Real.sqrt ((tx - ox) * (tx - ox) + (ty - oy) * (ty - oy)))).1)))) with hA
  have hA1 : 0 ≤ A := Real.arccos_nonneg _
  have hA2 : A ≤ Real.pi := Real.arccos_le_pi _
  have hT := abs_atan2_le_pi (ty - oy) (tx - ox)
  rw [← ht] at hT
  have hT1 := (abs_le.mp hT).1
  have hT2 := (abs_le.mp hT).2
  have hpr : |(if bp then t + A else t - A)| ≤ 2 * Real.pi := by
    cases bp <;> simp only [if_true, if_false, Bool.false_eq_true] <;>
      rw [abs_le] <;> constructor <;> linarith
  rw [abs_div, abs_mul, abs_of_pos hpi]
  rw [show |(180 : ℝ)| = 180 by norm_num]
  rw [div_le_iff₀ hpi]
  nlinarith [hpr, abs_nonneg (if bp then t + A else t - A)]

/-- The child rotation returned by the solver is at most 180° in absolute
value. -/
theorem solve2BoneIK_child_bound (a b tx ty ox oy : ℝ) (bp : Bool) :
    |(solve2BoneIK a b tx ty ox oy bp).childRotation| ≤ 180 := by
  have hpi := Real.pi_pos
  unfold solve2BoneIK
  dsimp only
  set B := Real.arccos (max (-1) (min 1
    ((a * a + b * b - (ikClamp a b (Real.sqrt ((tx - ox) * (tx - ox) + (ty - oy) * (ty - oy)))).1 *
        (ikClamp a b (Real.sqrt ((tx - ox) * (tx - ox) + (ty - oy) * (ty - oy)))).1) /
      (2 * a * b)))) with hB
  have hB1 : 0 ≤ B := Real.arccos_nonneg _
  have hB2 : B ≤ Real.pi := Real.arccos_le_pi _
  have hcr : |(if bp then -(Real.pi - B) else Real.pi - B)| ≤ Real.pi := by
    cases bp <;> simp only [if_true, if_false, Bool.false_eq_true] <;>
      rw [abs_le] <;> constructor <;> linarith
  rw [abs_div, abs_mul, abs_of_pos hpi]
  rw [show |(180 : ℝ)| = 180 by norm_num]
  rw [div_le_iff₀ hpi]
  nlinarith [hcr, abs_nonneg (if bp then -(Real.pi - B) else Real.pi - B)]

/-- C2: the two-bone solver clamps an out-of-range origin-to-target
distance to the nearest reachable bound (minus/plus the 0.001 epsilon),
reports `reachable = false` there and `reachable = true` otherwise, and
always returns finite (bounded) rotations; at `a = b = 50` a target at
distance 100 along +x gives `reachable = true` with both rotations exactly
0°, and a target at distance 1000 gives `reachable = false`. -/
theorem C2_solve2BoneIK_clamp :
    (∀ (a b tx ty ox oy : ℝ) (bp : Bool), 0 < a → 0 < b →
      (Real.sqrt ((tx - ox) * (tx - ox) + (ty - oy) * (ty - oy)) > a + b →
        ikClamp a b (Real.sqrt ((tx - ox) * (tx - ox) + (ty - oy) * (ty - oy))) =
          (a + b - 0.001, false) ∧
        (solve2BoneIK a b tx ty ox oy bp).reachable = false) ∧
      (Real.sqrt ((tx - ox) * (tx - ox) + (ty - oy) * (ty - oy)) < |a - b| →
        ikClamp a b (Real.sqrt ((tx - ox) * (tx - ox) + (ty - oy) * (ty - oy))) =
          (|a - b| + 0.001, false) ∧
        (solve2BoneIK a b tx ty ox oy bp).reachable = false) ∧
      (¬Real.sqrt ((tx - ox) * (tx - ox) + (ty - oy) * (ty - oy)) > a + b →
       ¬Real.sqrt ((tx - ox) * (tx - ox) + (ty - oy) * (ty - oy)) < |a - b| →
        ikClamp a b (Real.sqrt ((tx - ox) * (tx - ox) + (ty - oy) * (ty - oy))) =
          (Real.sqrt ((tx - ox) * (tx - ox) + (ty - oy) * (ty - oy)), true) ∧
        (solve2BoneIK a b tx ty ox oy bp).reachable = true) ∧
      |(solve2BoneIK a b tx ty ox oy bp).parentRotation| ≤ 360 ∧
      |(solve2BoneIK a b tx ty ox oy bp).childRotation| ≤ 180) ∧
    (∀ bp, solve2BoneIK 50 50 100 0 0 0 bp = ⟨0, 0, true⟩) ∧
    (∀ bp, (solve2BoneIK 50 50 1000 0 0 0 bp).reachable = false) := by
  have reach : ∀ (a b tx ty ox oy : ℝ) (bp : Bool),
      (solve2BoneIK a b tx ty ox oy bp).reachable =
        (ikClamp a b (Real.sqrt ((tx - ox) * (tx - ox) + (ty - oy) * (ty - oy)))).2 :=
    fun _ _ _ _ _ _ _ => rfl
  refine ⟨?_, ?_, ?_⟩
  · intro a b tx ty ox oy bp ha hb
    set d := Real.sqrt ((tx - ox) * (tx - ox) + (ty - oy) * (ty - oy)) with hd
    refine ⟨?_, ?_, ?_, solve2BoneIK_parent_bound a b tx ty ox oy bp,
      solve2BoneIK_child_bound a b tx ty ox oy bp⟩
    · intro h
      have hc : ikClamp a b d = (a + b - 0.001, false) := by
        unfold ikClamp
        rw [if_pos h]
      exact ⟨hc, by rw [reach, ← hd, hc]⟩
    · intro h
      have habs : |a - b| ≤ a + b := by
        rw [abs_le]; constructor <;> linarith
      have hnot : ¬d > a + b := by
        push_neg
        calc d ≤ |a - b| := h.le
        _ ≤ a + b := habs
      have hc : ikClamp a b d = (|a - b| + 0.001, false) := by
        unfold ikClamp
        rw [if_neg hnot, if_pos h]
      exact ⟨hc, by rw [reach, ← hd, hc]⟩
    · intro h1 h2
      have hc : ikClamp a b d = (d, true) := by
        unfold ikClamp
        rw [if_neg h1, if_neg h2]
      exact ⟨hc, by rw [reach, ← hd, hc]⟩
  · intro bp
    have hs : Real.sqrt (((100 : ℝ) - 0) * ((100 : ℝ) - 0) + ((0 : ℝ) - 0) * ((0 : ℝ) - 0)) = 100 := by
      rw [show ((100 : ℝ) - 0) * ((100 : ℝ) - 0) + ((0 : ℝ) - 0) * ((0 : ℝ) - 0) = 100 * 100 by norm_num]
      exact Real.sqrt_mul_self (by norm_num)
    have hclamp : ikClamp 50 50 (100 : ℝ) = (100, true) := by
      unfold ikClamp
      rw [if_neg (by norm_num), if_neg (by norm_num [abs_of_nonneg])]
    unfold solve2BoneIK
    dsimp only
    rw [hs, hclamp]
    have hA : Real.arccos (max (-1) (min 1 ((50 * 50 + (100 : ℝ) * 100 - 50 * 50) / (2 * 50 * 100)))) = 0 := by
      rw [show ((50 * 50 + (100 : ℝ) * 100 - 50 * 50) / (2 * 50 * 100)) = 1 by norm_num]
      rw [min_self, max_eq_right (by norm_num : (-1 : ℝ) ≤ 1)]
      exact Real.arccos_one
    have hB : Real.arccos (max (-1) (min 1 ((50 * 50 + (50 : ℝ) * 50 - 100 * 100) / (2 * 50 * 50)))) = Real.pi := by
      rw [show ((50 * 50 + (50 : ℝ) * 50 - 100 * 100) / (2 * 50 * 50)) = -1 by norm_num]
      rw [min_eq_right (by norm_num : (-1 : ℝ) ≤ 1), max_self]
      exact Real.arccos_neg_one
    have ht : atan2 ((0 : ℝ) - 0) ((100 : ℝ) - 0) = 0 := by
      rw [show ((0 : ℝ) - 0) = 0 by norm_num, show ((100 : ℝ) - 0) = 100 by norm_num]
      exact atan2_zero_of_pos (by norm_num)
    rw [hA, hB, ht]
    cases bp <;> simp [IKResult.mk.injEq]
  · intro bp
    have hs : Real.sqrt (((1000 : ℝ) - 0) * ((1000 : ℝ) - 0) + ((0 : ℝ) - 0) * ((0 : ℝ) - 0)) = 1000 := by
      rw [show ((1000 : ℝ) - 0) * ((1000 : ℝ) - 0) + ((0 : ℝ) - 0) * ((0 : ℝ) - 0) = 1000 * 1000 by norm_num]
      exact Real.sqrt_mul_self (by norm_num)
    rw [reach, hs]
    unfold ikClamp
    rw [if_pos (by norm_num)]

/-- Witness for C2: the general clause applied at `a = b = 50`, target
distance 1000 (its positivity hypotheses discharged numerically). -/
theorem C2_solve2BoneIK_clamp_witness :
    ikClamp 50 50 (Real.sqrt (((1000 : ℝ) - 0) * ((1000 : ℝ) - 0) + ((0 : ℝ) - 0) * ((0 : ℝ) - 0))) =
      (50 + 50 - 0.001, false) ∧
    (solve2BoneIK 50 50 1000 0 0 0 true).reachable = false := by
  have hs : Real.sqrt (((1000 : ℝ) - 0) * ((1000 : ℝ) - 0) + ((0 : ℝ) - 0) * ((0 : ℝ) - 0)) = 1000 := by
    rw [show ((1000 : ℝ) - 0) * ((1000 : ℝ) - 0) + ((0 : ℝ) - 0) * ((0 : ℝ) - 0) = 1000 * 1000 by norm_num]
    exact Real.sqrt_mul_self (by norm_num)
  exact (C2_solve2BoneIK_clamp.1 50 50 1000 0 0 0 true (by norm_num) (by norm_num)).1
    (by rw [hs]; norm_num)

/-- The ancestor-id walk from a missing bone returns the accumulator for
any fuel. -/
theorem chainIdsGo_none (bones : List Bone) :
    ∀ (fuel : ℕ) (acc : List String), chainIdsGo bones fuel none acc = acc := by
  intro fuel acc
  cases fuel <;> rfl

/-- The first entry emitted by the world fold is the incoming running
state advanced by its own bone. -/
theorem chainWorldGo_head (bones : List Bone) :
    ∀ (ids : List String) (wx wy wr : ℝ) (e : WorldBone) (l : List WorldBone),
      chainWorldGo bones ids wx wy wr = e :: l →
      e.worldX = wx + (Real.cos (wr * Real.pi / 180) * (e.bone.x * e.bone.scaleX) -
        Real.sin (wr * Real.pi / 180) * (e.bone.y * e.bone.scaleY)) ∧
      e.worldY = wy + (Real.sin (wr * Real.pi / 180) * (e.bone.x * e.bone.scaleX) +
        Real.cos (wr * Real.pi / 180) * (e.bone.y * e.bone.scaleY)) ∧
      e.worldRotation = wr + e.bone.rotation := by
  intro ids
  induction ids with
  | nil =>
    intro wx wy wr e l h
    simp [chainWorldGo] at h
  | cons i rest ih =>
    intro wx wy wr e l h
    unfold chainWorldGo at h
    cases hm : mapGet bones i with
    | none =>
      rw [hm] at h
      exact ih wx wy wr e l h
    | some bone =>
      rw [hm] at h
      injection h with he _
      subst he
      exact ⟨rfl, rfl, rfl⟩

/-- Any two adjacent entries of the world fold satisfy the child
recurrence: position advanced by the own-scale-scaled local offset rotated
by the previous world rotation, rotation advanced by the local rotation. -/
theorem chainWorldGo_adjacent (bones : List Bone) :
    ∀ (ids : List String) (wx wy wr : ℝ) (pre : List WorldBone) (e1 e2 : WorldBone)
      (post : List WorldBone),
      chainWorldGo bones ids wx wy wr = pre ++ e1 :: e2 :: post →
      e2.worldX = e1.worldX +
        (Real.cos (e1.worldRotation * Real.pi / 180) * (e2.bone.x * e2.bone.scaleX) -
         Real.sin (e1.worldRotation * Real.pi / 180) * (e2.bone.y * e2.bone.scaleY)) ∧
      e2.worldY = e1.worldY +
        (Real.sin (e1.worldRotation * Real.pi / 180) * (e2.bone.x * e2.bone.scaleX) +
         Real.cos (e1.worldRotation * Real.pi / 180) * (e2.bone.y * e2.bone.scaleY)) ∧
      e2.worldRotation = e1.worldRotation + e2.bone.rotation := by
  intro ids
  induction ids with
  | nil =>
    intro wx wy wr pre e1 e2 post h
    simp [chainWorldGo] at h
  | cons i rest ih =>
    intro wx wy wr pre e1 e2 post h
    unfold chainWorldGo at h
    cases hm : mapGet bones i with
    | none =>
      rw [hm] at h
      exact ih wx wy wr pre e1 e2 post h
    | some bone =>
      rw [hm] at h
      cases pre with
      | nil =>
        simp only [List.nil_append] at h
        injection h with he hl
        subst he
        exact chainWorldGo_head bones rest _ _ _ e2 post hl
      | cons p pre2 =>
        simp only [List.cons_append] at h
        injection h with _ hl
        exact ih _ _ _ pre2 e1 e2 post hl

/-- C1 (amended): the world transform computed by `computeBoneChainWorld`
satisfies: a bone with no parent has world position equal to its local
`(x, y)` scaled componentwise by its **own** scale and world rotation equal
to its local rotation; and each child entry's world position equals the
previous entry's world position plus its local `(x, y)` scaled by the
child's **own** scale and rotated by the previous (parent's) world
rotation, with world rotation the sum of the parent's world rotation and
the local rotation. -/
theorem C1_world_transform_amended :
    (∀ (bones : List Bone) (b : Bone), mapGet bones b.id = some b →
      b.parentId = none →
      computeBoneChainWorld bones b.id =
        [⟨b, b.x * b.scaleX, b.y * b.scaleY, b.rotation⟩]) ∧
    (∀ (bones : List Bone) (targetBoneId : String) (pre : List WorldBone)
      (e1 e2 : WorldBone) (post : List WorldBone),
      computeBoneChainWorld bones targetBoneId = pre ++ e1 :: e2 :: post →
      e2.worldX = e1.worldX +
        (Real.cos (e1.worldRotation * Real.pi / 180) * (e2.bone.x * e2.bone.scaleX) -
         Real.sin (e1.worldRotation * Real.pi / 180) * (e2.bone.y * e2.bone.scaleY)) ∧
      e2.worldY = e1.worldY +
        (Real.sin (e1.worldRotation * Real.pi / 180) * (e2.bone.x * e2.bone.scaleX) +
         Real.cos (e1.worldRotation * Real.pi / 180) * (e2.bone.y * e2.bone.scaleY)) ∧
      e2.worldRotation = e1.worldRotation + e2.bone.rotation) := by
  constructor
  · intro bones b hb hp
    unfold computeBoneChainWorld chainIds
    rw [hb]
    show chainWorldGo bones
      (chainIdsGo bones bones.length (b.parentId.bind fun p => mapGet bones p) [b.id]) 0 0 0 = _
    rw [hp]
    show chainWorldGo bones (chainIdsGo bones bones.length none [b.id]) 0 0 0 = _
    rw [chainIdsGo_none]
    unfold chainWorldGo
    rw [hb]
    simp [chainWorldGo, Real.cos_zero, Real.sin_zero]
  · intro bones targetBoneId pre e1 e2 post h
    exact chainWorldGo_adjacent bones _ _ _ _ pre e1 e2 post h

/-- Witness for C1 at a concrete one-bone skeleton. -/
theorem C1_world_transform_amended_witness :
    computeBoneChainWorld [boneScaled] boneScaled.id =
      [⟨boneScaled, boneScaled.x * boneScaled.scaleX,
        boneScaled.y * boneScaled.scaleY, boneScaled.rotation⟩] :=
  C1_world_transform_amended.1 [boneScaled] boneScaled rfl rfl

/-- Counterexample for C1 as stated: a parentless bone with `x = 1`,
`scaleX = 2` gets world position `(2, 0)`, not its local `(1, 0)` — the
code scales a bone's local offset by the bone's own scale, so the world
transform of a root is not its local transform exactly and a child's
offset is not scaled by the parent's scale. -/
theorem C1_world_transform_counterexample :
    (computeBoneChainWorld [boneScaled] "a").map
        (fun w => (w.worldX, w.worldY, w.worldRotation)) = [((2 : ℝ), (0 : ℝ), (0 : ℝ))] ∧
    (boneScaled.x, boneScaled.y, boneScaled.rotation) = ((1 : ℝ), (0 : ℝ), (0 : ℝ)) ∧
    ((2 : ℝ), (0 : ℝ), (0 : ℝ)) ≠ ((1 : ℝ), (0 : ℝ), (0 : ℝ)) := by
  refine ⟨?_, rfl, by simp⟩
  have hc : chainIds [boneScaled] "a" = ["a"] := rfl
  unfold computeBoneChainWorld
  rw [hc]
  unfold chainWorldGo
  rw [show mapGet [boneScaled] "a" = some boneScaled from rfl]
  simp [chainWorldGo, Real.cos_zero, Real.sin_zero, boneScaled]

instance : IsTotal Keyframe (fun a b => a.time ≤ b.time) :=
  ⟨fun a b => le_total a.time b.time⟩

instance : IsTrans Keyframe (fun a b => a.time ≤ b.time) :=
  ⟨fun _ _ _ hab hbc => le_trans hab hbc⟩

/-- The engine's sort really sorts by time. -/
theorem sortKeyframes_sorted (kfs : List Keyframe) :
    List.Sorted (fun a b => a.time ≤ b.time) (sortKeyframes kfs) :=
  List.sorted_insertionSort _ _

/-- Unfolding `evaluateTrackAtTime` once the sorted list is known. -/
theorem evaluateTrackAtTime_cons (bez : ℝ → ℝ → ℝ → ℝ → ℝ → ℝ)
    (kfs : List Keyframe) (time : ℝ) (k0 : Keyframe) (rest : List Keyframe)
    (h : sortKeyframes kfs = k0 :: rest) :
    evaluateTrackAtTime bez kfs time =
      if time ≤ k0.time then some (keyframeDelta k0)
      else if time ≥ (rest.getLastD k0).time then
        some (keyframeDelta (rest.getLastD k0))
      else some ((findBracket bez (k0 :: rest) time).getD
        (keyframeDelta (rest.getLastD k0))) := by
  unfold evaluateTrackAtTime
  rw [h]

/-- In a sorted list, the bracketing loop returns the interpolation of the
(unique) adjacent pair enclosing the query time. -/
theorem findBracket_eq (bez : ℝ → ℝ → ℝ → ℝ → ℝ → ℝ) :
    ∀ (pre : List Keyframe) (k1 k2 : Keyframe) (post : List Keyframe) (time : ℝ),
      List.Sorted (fun a b => a.time ≤ b.time) (pre ++ k1 :: k2 :: post) →
      k1.time ≤ time → time < k2.time →
      findBracket bez (pre ++ k1 :: k2 :: post) time =
        some (interpolateKeyframes bez k1 k2 time) := by
  intro pre
  induction pre with
  | nil =>
    intro k1 k2 post time _hs h1 h2
    simp only [List.nil_append]
    unfold findBracket
    rw [if_pos ⟨h1, h2⟩]
  | cons p pre2 ih =>
    intro k1 k2 post time hs h1 h2
    have hs2 : List.Sorted (fun a b => a.time ≤ b.time) (pre2 ++ k1 :: k2 :: post) :=
      (List.sorted_cons.mp hs).2
    cases hq : pre2 ++ k1 :: k2 :: post with
    | nil => exact absurd hq (by simp)
    | cons q rest =>
      have hnext : q.time ≤ k1.time := by
        have hsq : List.Sorted (fun a b => a.time ≤ b.time) (q :: rest) := by
          rw [← hq]; exact hs2
        have hk1 : k1 ∈ q :: rest := by
          rw [← hq]; exact List.mem_append_right _ (List.mem_cons_self _ _)
        rcases List.mem_cons.mp hk1 with h | h
        · exact le_of_eq (by rw [h])
        · exact (List.sorted_cons.mp hsq).1 k1 h
      show findBracket bez (p :: (pre2 ++ k1 :: k2 :: post)) time = _
      rw [hq]
      unfold findBracket
      rw [if_neg (by rintro ⟨-, hb⟩; exact absurd hb (not_lt.mpr (hnext.trans h1)))]
      rw [← hq]
      exact ih k1 k2 post time hs2 h1 h2

/-- C4: track evaluation returns `none` on an empty keyframe list, the
first (sorted) keyframe verbatim at or before its time, the last verbatim
at or after its time, and otherwise interpolates the bracketing pair with
the eased normalized progress (present-in-both fields blended, others left
out); concretely, on `[{time 0, x 0}, {time 1000, x 100}]` evaluation at
−50, 1500, 500 (linear) and 500 (step) yields x = 0, 100, 50 and 0. -/
theorem C4_evaluateTrack_boundaries :
    (∀ (bez : ℝ → ℝ → ℝ → ℝ → ℝ → ℝ) (time : ℝ),
      evaluateTrackAtTime bez [] time = none) ∧
    (∀ (bez : ℝ → ℝ → ℝ → ℝ → ℝ → ℝ) (kfs : List Keyframe) (time : ℝ)
      (k0 : Keyframe) (rest : List Keyframe),
      sortKeyframes kfs = k0 :: rest → time ≤ k0.time →
      evaluateTrackAtTime bez kfs time = some (keyframeDelta k0)) ∧
    (∀ (bez : ℝ → ℝ → ℝ → ℝ → ℝ → ℝ) (kfs : List Keyframe) (time : ℝ)
      (k0 : Keyframe) (rest : List Keyframe),
      sortKeyframes kfs = k0 :: rest → ¬time ≤ k0.time →
      time ≥ (rest.getLastD k0).time →
      evaluateTrackAtTime bez kfs time = some (keyframeDelta (rest.getLastD k0))) ∧
    (∀ (bez : ℝ → ℝ → ℝ → ℝ → ℝ → ℝ) (kfs : List Keyframe) (time : ℝ)
      (k0 : Keyframe) (rest pre : List Keyframe) (k1 k2 : Keyframe) (post : List Keyframe),
      sortKeyframes kfs = k0 :: rest → k0 :: rest = pre ++ k1 :: k2 :: post →
      ¬time ≤ k0.time → ¬time ≥ (rest.getLastD k0).time →
      k1.time ≤ time → time < k2.time →
      evaluateTrackAtTime bez kfs time = some (interpolateKeyframes bez k1 k2 time)) ∧
    (∀ (bez : ℝ → ℝ → ℝ → ℝ → ℝ → ℝ) (k1 k2 : Keyframe) (time a b : ℝ),
      k1.time < k2.time → k1.x = some a → k2.x = some b →
      (interpolateKeyframes bez k1 k2 time).x =
        some (lerp a b (getBezierEasing bez k1.easing
          ((time - k1.time) / (k2.time - k1.time))))) ∧
    (∀ (bez : ℝ → ℝ → ℝ → ℝ → ℝ → ℝ) (k1 k2 : Keyframe) (time : ℝ),
      k1.time < k2.time → k1.x = none ∨ k2.x = none →
      (interpolateKeyframes bez k1 k2 time).x = none) ∧
    (∀ bez : ℝ → ℝ → ℝ → ℝ → ℝ → ℝ,
      (evaluateTrackAtTime bez [kfA, kfB] (-50)).map (fun d => d.x) = some (some 0) ∧
      (evaluateTrackAtTime bez [kfA, kfB] 1500).map (fun d => d.x) = some (some 100) ∧
      (evaluateTrackAtTime bez [kfA, kfB] 500).map (fun d => d.x) = some (some 50) ∧
      (evaluateTrackAtTime bez [kfAStep, kfB] 500).map (fun d => d.x) = some (some 0)) := by
  have hpair : ∀ bez : ℝ → ℝ → ℝ → ℝ → ℝ → ℝ, sortKeyframes [kfA, kfB] = kfA :: [kfB] := by
    intro _bez
    norm_num [sortKeyframes, List.insertionSort, List.orderedInsert, kfA, kfB]
  have hpairS : sortKeyframes [kfAStep, kfB] = kfAStep :: [kfB] := by
    norm_num [sortKeyframes, List.insertionSort, List.orderedInsert, kfAStep, kfB]
  have hEmpty : ∀ (bez : ℝ → ℝ → ℝ → ℝ → ℝ → ℝ) (time : ℝ),
      evaluateTrackAtTime bez [] time = none := fun _ _ => rfl
  have hFirst : ∀ (bez : ℝ → ℝ → ℝ → ℝ → ℝ → ℝ) (kfs : List Keyframe) (time : ℝ)
      (k0 : Keyframe) (rest : List Keyframe),
      sortKeyframes kfs = k0 :: rest → time ≤ k0.time →
      evaluateTrackAtTime bez kfs time = some (keyframeDelta k0) := by
    intro bez kfs time k0 rest hs ht
    rw [evaluateTrackAtTime_cons bez kfs time k0 rest hs, if_pos ht]
  have hLast : ∀ (bez : ℝ → ℝ → ℝ → ℝ → ℝ → ℝ) (kfs : List Keyframe) (time : ℝ)
      (k0 : Keyframe) (rest : List Keyframe),
      sortKeyframes kfs = k0 :: rest → ¬time ≤ k0.time →
      time ≥ (rest.getLastD k0).time →
      evaluateTrackAtTime bez kfs time = some (keyframeDelta (rest.getLastD k0)) := by
    intro bez kfs time k0 rest hs ht hl
    rw [evaluateTrackAtTime_cons bez kfs time k0 rest hs, if_neg ht, if_pos hl]
  have hMid : ∀ (bez : ℝ → ℝ → ℝ → ℝ → ℝ → ℝ) (kfs : List Keyframe) (time : ℝ)
      (k0 : Keyframe) (rest pre : List Keyframe) (k1 k2 : Keyframe) (post : List Keyframe),
      sortKeyframes kfs = k0 :: rest → k0 :: rest = pre ++ k1 :: k2 :: post →
      ¬time ≤ k0.time → ¬time ≥ (rest.getLastD k0).time →
      k1.time ≤ time → time < k2.time →
      evaluateTrackAtTime bez kfs time = some (interpolateKeyframes bez k1 k2 time) := by
    intro bez kfs time k0 rest pre k1 k2 post hs hd ht hl h1 h2
    rw [evaluateTrackAtTime_cons bez kfs time k0 rest hs, if_neg ht, if_neg hl]
    have hsorted : List.Sorted (fun a b => a.time ≤ b.time) (pre ++ k1 :: k2 :: post) := by
      have := sortKeyframes_sorted kfs
      rw [hs, hd] at this
      exact this
    rw [hd, findBracket_eq bez pre k1 k2 post time hsorted h1 h2]
    rfl
  have hBlend : ∀ (bez : ℝ → ℝ → ℝ → ℝ → ℝ → ℝ) (k1 k2 : Keyframe) (time a b : ℝ),
      k1.time < k2.time → k1.x = some a → k2.x = some b →
      (interpolateKeyframes bez k1 k2 time).x =
        some (lerp a b (getBezierEasing bez k1.easing
          ((time - k1.time) / (k2.time - k1.time)))) := by
    intro bez k1 k2 time a b hlt hx1 hx2
    unfold interpolateKeyframes
    rw [if_neg (by simp only [not_le]; linarith)]
    simp only [hx1, hx2]
  have hSparse : ∀ (bez : ℝ → ℝ → ℝ → ℝ → ℝ → ℝ) (k1 k2 : Keyframe) (time : ℝ),
      k1.time < k2.time → k1.x = none ∨ k2.x = none →
      (interpolateKeyframes bez k1 k2 time).x = none := by
    intro bez k1 k2 time hlt hor
    unfold interpolateKeyframes
    rw [if_neg (by simp only [not_le]; linarith)]
    rcases hor with h | h
    · simp only [h]
    · cases hx1 : k1.x <;> simp only [h, hx1]
  refine ⟨hEmpty, hFirst, hLast, hMid, hBlend, hSparse, ?_⟩
  intro bez
  refine ⟨?_, ?_, ?_, ?_⟩
  · rw [hFirst bez [kfA, kfB] (-50) kfA [kfB] (hpair bez) (by norm_num [kfA])]
    simp [keyframeDelta, kfA]
  · rw [hLast bez [kfA, kfB] 1500 kfA [kfB] (hpair bez) (by norm_num [kfA])
      (by norm_num [List.getLastD, kfB])]
    simp [keyframeDelta, List.getLastD, kfB]
  · rw [hMid bez [kfA, kfB] 500 kfA [kfB] [] kfA kfB [] (hpair bez) rfl
      (by norm_num [kfA]) (by norm_num [List.getLastD, kfB])
      (by norm_num [kfA]) (by norm_num [kfB])]
    have := hBlend bez kfA kfB 500 0 100 (by norm_num [kfA, kfB]) rfl rfl
    simp only [Option.map_some']
    rw [this]
    norm_num [lerp, kfA, kfB, getBezierEasing]
  · rw [hMid bez [kfAStep, kfB] 500 kfAStep [kfB] [] kfAStep kfB [] hpairS rfl
      (by norm_num [kfAStep]) (by norm_num [List.getLastD, kfB])
      (by norm_num [kfAStep]) (by norm_num [kfB])]
    have := hBlend bez kfAStep kfB 500 0 100 (by norm_num [kfAStep, kfB]) rfl rfl
    simp only [Option.map_some']
    rw [this]
    norm_num [lerp, kfAStep, kfB, getBezierEasing]

/-- Witness for C4: the boundary clause applied to the concrete track. -/
theorem C4_evaluateTrack_boundaries_witness :
    evaluateTrackAtTime bezId [kfA, kfB] (-50) = some (keyframeDelta kfA) :=
  C4_evaluateTrack_boundaries.2.1 bezId [kfA, kfB] (-50) kfA [kfB]
    (by norm_num [sortKeyframes, List.insertionSort, List.orderedInsert, kfA, kfB])
    (by norm_num [kfA])

/-- The JavaScript remainder by 360 lies strictly between −360 and 360. -/
theorem jsMod_360_bounds (a : ℝ) : -360 < jsMod a 360 ∧ jsMod a 360 < 360 := by
  have e : a / 360 * 360 = a := div_mul_cancel₀ a (by norm_num)
  unfold jsMod jsTrunc
  split_ifs with h
  · have h1 := Int.floor_le (a / 360)
    have h2 := Int.sub_one_lt_floor (a / 360)
    have h1' := mul_le_mul_of_nonneg_right h1 (by norm_num : (0 : ℝ) ≤ 360)
    have h2' := mul_lt_mul_of_pos_right h2 (by norm_num : (0 : ℝ) < 360)
    constructor <;> nlinarith [h1', h2', e]
  · have h1 := Int.le_ceil (a / 360)
    have h2 := Int.ceil_lt_add_one (a / 360)
    have h1' := mul_le_mul_of_nonneg_right h1 (by norm_num : (0 : ℝ) ≤ 360)
    have h2' := mul_lt_mul_of_pos_right h2 (by norm_num : (0 : ℝ) < 360)
    constructor <;> nlinarith [h1', h2', e]

/-- `normalizeAngle` lands in the closed interval `[-180, 180]` (both
endpoints are reachable: the source keeps `-180` as `-180`). -/
theorem normalizeAngle_mem (a : ℝ) :
    -180 ≤ normalizeAngle a ∧ normalizeAngle a ≤ 180 := by
  have hb := jsMod_360_bounds a
  unfold normalizeAngle
  dsimp only
  split_ifs <;> constructor <;> linarith [hb.1, hb.2]

/-- `normalizeAngle (-340) = 20`: the 170° → −170° delta travels 20°. -/
theorem normalizeAngle_neg340 : normalizeAngle (-340 : ℝ) = 20 := by
  have hc : ⌈((-340 : ℝ)) / 360⌉ = 0 := by
    rw [Int.ceil_eq_iff]
    constructor <;> norm_num
  unfold normalizeAngle jsMod jsTrunc
  rw [if_neg (by norm_num : ¬(0 : ℝ) ≤ (-340 : ℝ) / 360)]
  rw [hc]
  norm_num

/-- `normalizeAngle (-180) = -180`: the delta `-180` is left at `-180`,
not sent to `+180`. -/
theorem normalizeAngle_neg180 : normalizeAngle (-180 : ℝ) = -180 := by
  have hc : ⌈((-180 : ℝ)) / 360⌉ = 0 := by
    rw [Int.ceil_eq_iff]
    constructor <;> norm_num
  unfold normalizeAngle jsMod jsTrunc
  rw [if_neg (by norm_num : ¬(0 : ℝ) ≤ (-180 : ℝ) / 360)]
  rw [hc]
  norm_num

/-- C5 (amended): rotation present in both bracketing keyframes blends
along the delta normalized by `normalizeAngle` into the closed interval
`[-180°, 180°]` (not the half-open `(-180°, 180°]`: an exact `-180` delta
stays `-180`); interpolating 170° → −170° at `t = 1/2` with linear easing
yields exactly 180°. -/
theorem C5_shortest_path_amended :
    (∀ (bez : ℝ → ℝ → ℝ → ℝ → ℝ → ℝ) (k1 k2 : Keyframe) (time r1 r2 : ℝ),
      k1.time < k2.time → k1.rotation = some r1 → k2.rotation = some r2 →
      (interpolateKeyframes bez k1 k2 time).rotation =
        some (r1 + normalizeAngle (r2 - r1) *
          getBezierEasing bez k1.easing ((time - k1.time) / (k2.time - k1.time)))) ∧
    (∀ a : ℝ, -180 ≤ normalizeAngle a ∧ normalizeAngle a ≤ 180) ∧
    lerpAngle 170 (-170) (1 / 2) = 180 ∧
    (∀ bez : ℝ → ℝ → ℝ → ℝ → ℝ → ℝ,
      (interpolateKeyframes bez kfRot170 kfRotNeg170 500).rotation = some 180) := by
  have hrot : ∀ (bez : ℝ → ℝ → ℝ → ℝ → ℝ → ℝ) (k1 k2 : Keyframe) (time r1 r2 : ℝ),
      k1.time < k2.time → k1.rotation = some r1 → k2.rotation = some r2 →
      (interpolateKeyframes bez k1 k2 time).rotation =
        some (r1 + normalizeAngle (r2 - r1) *
          getBezierEasing bez k1.easing ((time - k1.time) / (k2.time - k1.time))) := by
    intro bez k1 k2 time r1 r2 hlt h1 h2
    unfold interpolateKeyframes
    rw [if_neg (by simp only [not_le]; linarith)]
    simp only [h1, h2, lerpAngle]
  refine ⟨hrot, normalizeAngle_mem, ?_, ?_⟩
  · unfold lerpAngle
    norm_num [normalizeAngle_neg340]
  · intro bez
    have h := hrot bez kfRot170 kfRotNeg170 500 170 (-170)
      (by norm_num [kfRot170, kfRotNeg170]) rfl rfl
    rw [h]
    norm_num [kfRot170, kfRotNeg170, getBezierEasing, normalizeAngle_neg340]

/-- Witness for C5 at the concrete 170° → −170° track. -/
theorem C5_shortest_path_amended_witness :
    (interpolateKeyframes bezId kfRot170 kfRotNeg170 500).rotation =
      some (170 + normalizeAngle ((-170) - 170) *
        getBezierEasing bezId kfRot170.easing
          ((500 - kfRot170.time) / (kfRotNeg170.time - kfRot170.time))) :=
  C5_shortest_path_amended.1 bezId kfRot170 kfRotNeg170 500 170 (-170)
    (by norm_num [kfRot170, kfRotNeg170]) rfl rfl

/-- Counterexample for C5 as stated: the delta from rotation 0 to rotation
−180 normalizes to −180, which is **not** in the claimed half-open
interval `(-180°, 180°]`, and the blend follows it (yielding −90 at
`t = 1/2`, where a `(-180, 180]`-normalization would give +90). -/
theorem C5_shortest_path_counterexample :
    normalizeAngle ((-180 : ℝ) - 0) = -180 ∧
    (-180 : ℝ) ∉ Set.Ioc (-180 : ℝ) 180 ∧
    (interpolateKeyframes bezId kfRot0 kfRotNeg180 500).rotation = some (-90) := by
  refine ⟨by norm_num [normalizeAngle_neg180], by simp, ?_⟩
  unfold interpolateKeyframes
  rw [if_neg (by norm_num [kfRot0, kfRotNeg180])]
  show some (lerpAngle 0 (-180) _) = _
  unfold lerpAngle
  norm_num [kfRot0, kfRotNeg180, getBezierEasing, bezId, normalizeAngle_neg180]

/-- C10: at or before the first (or at or after the last) sorted keyframe,
`evaluateTrackAtTime` returns the keyframe object itself, which carries
`time` and `easing`; `setRigTime`'s spread therefore copies those two
extra properties onto the bone record, whereas a mid-track interpolation
result carries neither. -/
theorem C10_boundary_spread_extras :
    (∀ (bez : ℝ → ℝ → ℝ → ℝ → ℝ → ℝ) (kfs : List Keyframe) (time : ℝ)
      (k0 : Keyframe) (rest : List Keyframe) (bone : Bone),
      sortKeyframes kfs = k0 :: rest → time ≤ k0.time →
      evaluateTrackAtTime bez kfs time = some (keyframeDelta k0) ∧
      (keyframeDelta k0).time = some k0.time ∧
      (keyframeDelta k0).easing = some k0.easing ∧
      (setRigTimeBone bez bone (some kfs) time).time = some k0.time ∧
      (setRigTimeBone bez bone (some kfs) time).easing = some k0.easing) ∧
    (∀ (bez : ℝ → ℝ → ℝ → ℝ → ℝ → ℝ) (kfs : List Keyframe) (time : ℝ)
      (k0 : Keyframe) (rest : List Keyframe) (bone : Bone),
      sortKeyframes kfs = k0 :: rest → ¬time ≤ k0.time →
      time ≥ (rest.getLastD k0).time →
      evaluateTrackAtTime bez kfs time = some (keyframeDelta (rest.getLastD k0)) ∧
      (setRigTimeBone bez bone (some kfs) time).time = some (rest.getLastD k0).time ∧
      (setRigTimeBone bez bone (some kfs) time).easing = some (rest.getLastD k0).easing) ∧
    (∀ (bez : ℝ → ℝ → ℝ → ℝ → ℝ → ℝ) (k1 k2 : Keyframe) (time : ℝ),
      k1.time < k2.time →
      (interpolateKeyframes bez k1 k2 time).time = none ∧
      (interpolateKeyframes bez k1 k2 time).easing = none) := by
  refine ⟨?_, ?_, ?_⟩
  · intro bez kfs time k0 rest bone hs ht
    have heval : evaluateTrackAtTime bez kfs time = some (keyframeDelta k0) := by
      rw [evaluateTrackAtTime_cons bez kfs time k0 rest hs, if_pos ht]
    refine ⟨heval, rfl, rfl, ?_, ?_⟩
    · show (match evaluateTrackAtTime bez kfs time with
        | none => boneSpread bone
        | some p => spreadDelta bone p).time = some k0.time
      rw [heval]
      rfl
    · show (match evaluateTrackAtTime bez kfs time with
        | none => boneSpread bone
        | some p => spreadDelta bone p).easing = some k0.easing
      rw [heval]
      rfl
  · intro bez kfs time k0 rest bone hs ht hl
    have heval : evaluateTrackAtTime bez kfs time =
        some (keyframeDelta (rest.getLastD k0)) := by
      rw [evaluateTrackAtTime_cons bez kfs time k0 rest hs, if_neg ht, if_pos hl]
    refine ⟨heval, ?_, ?_⟩
    · show (match evaluateTrackAtTime bez kfs time with
        | none => boneSpread bone
        | some p => spreadDelta bone p).time = some (rest.getLastD k0).time
      rw [heval]
      rfl
    · show (match evaluateTrackAtTime bez kfs time with
        | none => boneSpread bone
        | some p => spreadDelta bone p).easing = some (rest.getLastD k0).easing
      rw [heval]
      rfl
  · intro bez k1 k2 time hlt
    unfold interpolateKeyframes
    rw [if_neg (by simp only [not_le]; linarith)]
    exact ⟨rfl, rfl⟩

/-- Witness for C10 at the concrete track and a concrete bone. -/
theorem C10_boundary_spread_extras_witness :
    (setRigTimeBone bezId boneB1 (some [kfA, kfB]) (-50)).time = some kfA.time ∧
    (setRigTimeBone bezId boneB1 (some [kfA, kfB]) (-50)).easing = some kfA.easing := by
  have h := C10_boundary_spread_extras.1 bezId [kfA, kfB] (-50) kfA [kfB] boneB1
    (by norm_num [sortKeyframes, List.insertionSort, List.orderedInsert, kfA, kfB])
    (by norm_num [kfA])
  exact ⟨h.2.2.2.1, h.2.2.2.2⟩

/-- C3 (amended): for any joints — hence for every mask that passes
validation — the converted skeleton has exactly these 11 bones in order,
with parent keys `root→spine→head`, `spine→upper_arm_L/R→lower_arm_L/R`
and `root→upper_leg_L/R→lower_leg_L/R` (the arms hang off the **spine**,
not off the root); and every layout the analyzer returns builds its
segments from its joints by exactly this fixed list. -/
theorem C3_topology_amended :
    (∀ j : RigJoints,
      (convertSegmentsToBones (segmentsFromJoints j)).map (fun b => b.key) =
        ["root", "spine", "head", "upper_arm_l", "lower_arm_l", "upper_arm_r",
         "lower_arm_r", "upper_leg_l", "lower_leg_l", "upper_leg_r", "lower_leg_r"] ∧
      (convertSegmentsToBones (segmentsFromJoints j)).map (fun b => b.parentKey) =
        [none, some "root", some "spine", some "spine", some "upper_arm_l",
         some "spine", some "upper_arm_r", some "root", some "upper_leg_l",
         some "root", some "upper_leg_r"]) ∧
    (∀ (m : MaskImage) (thr : ℝ) (layout : AutoRigLayout),
      buildLayoutFromMask m thr = Except.ok layout →
      layout.segments = segmentsFromJoints layout.joints) := by
  constructor
  · intro j
    exact ⟨rfl, rfl⟩
  · intro m thr layout h
    unfold buildLayoutFromMask at h
    split at h
    · exact absurd h (by simp)
    · split at h
      · exact absurd h (by simp)
      · injection h with h2
        subst h2
        rfl

/-- Witness for C3 at concrete joints. -/
theorem C3_topology_amended_witness :
    (convertSegmentsToBones (segmentsFromJoints jointsZero)).map (fun b => b.key) =
      ["root", "spine", "head", "upper_arm_l", "lower_arm_l", "upper_arm_r",
       "lower_arm_r", "upper_leg_l", "lower_leg_l", "upper_leg_r", "lower_leg_r"] :=
  (C3_topology_amended.1 jointsZero).1

/-- Counterexample for C3 as stated: at any concrete joints the left upper
arm's parent key is `"spine"`, not the `"root"` the claim requires. -/
theorem C3_topology_counterexample :
    ((convertSegmentsToBones (segmentsFromJoints jointsZero)).find?
        (fun b => b.key == "upper_arm_l")).map (fun b => b.parentKey) =
      some (some "spine") ∧
    some (some "spine") ≠ some (some "root") := by
  exact ⟨rfl, by decide⟩

/-- `none` is absorbing for the ancestor walk. -/
theorem walk_iterate_none (bones : List Bone) (k : ℕ) :
    (walk bones)^[k] none = none := by
  induction k with
  | zero => rfl
  | succ n ih =>
    rw [Function.iterate_succ_apply]
    exact ih

/-- The walk step from a present bone, written by its parent pointer. -/
theorem walk_some (bones : List Bone) (c : Bone) :
    walk bones (some c) =
      match c.parentId with
      | none => none
      | some p => findBone bones p := rfl

/-- Every bone visited by the ancestor walk from a `findBone` result is a
member of the list. -/
theorem walk_iterate_mem (bones : List Bone) (np : String) :
    ∀ (t : ℕ) (b : Bone),
      (walk bones)^[t] (findBone bones np) = some b → b ∈ bones := by
  intro t
  induction t with
  | zero =>
    intro b hb
    exact List.mem_of_find?_eq_some hb
  | succ n ih =>
    intro b hb
    rw [Function.iterate_succ_apply'] at hb
    cases hx : (walk bones)^[n] (findBone bones np) with
    | none => rw [hx] at hb; exact absurd hb (by simp [walk])
    | some c =>
      rw [hx, walk_some] at hb
      cases hp : c.parentId with
      | none => rw [hp] at hb; exact absurd hb (by simp)
      | some p =>
        rw [hp] at hb
        exact List.mem_of_find?_eq_some hb

/-- A `false` guard result means: the walk never meets the target id, and
the chain dies (the fuel was not exhausted, since exhaustion returns
`true`). -/
theorem hitsLoop_false_no_hit (bones : List Bone) (target : String) :
    ∀ (fuel : ℕ) (s : Option Bone),
      hitsLoop bones target fuel s = false →
      (∀ (j : ℕ) (b : Bone), (walk bones)^[j] s = some b → b.id ≠ target) ∧
      ∃ j, (walk bones)^[j] s = none := by
  intro fuel
  induction fuel with
  | zero =>
    intro s h
    exact absurd h (by simp [hitsLoop])
  | succ n ih =>
    intro s h
    cases s with
    | none =>
      refine ⟨?_, ⟨0, rfl⟩⟩
      intro j b hb
      rw [walk_iterate_none] at hb
      exact absurd hb (by simp)
    | some b0 =>
      unfold hitsLoop at h
      split at h
      · exact absurd h (by simp)
      · rename_i hcond
        obtain ⟨hnohit, j0, hj0⟩ := ih (walk bones (some b0)) h
        refine ⟨?_, ⟨j0 + 1, ?_⟩⟩
        · intro j b hb
          cases j with
          | zero =>
            simp only [Function.iterate_zero_apply, Option.some.injEq] at hb
            subst hb
            intro he
            exact hcond (by simp [he])
          | succ jj =>
            rw [Function.iterate_succ_apply] at hb
            exact hnohit jj b hb
        · rw [Function.iterate_succ_apply]
          exact hj0

/-- If the walk meets the target id within the fuel, the guard reports it. -/
theorem hitsLoop_true_of_hit (bones : List Bone) (target : String) :
    ∀ (j fuel : ℕ) (s : Option Bone), j < fuel →
      ((walk bones)^[j] s).map (fun b => b.id) = some target →
      hitsLoop bones target fuel s = true := by
  intro j
  induction j with
  | zero =>
    intro fuel s hlt hhit
    cases s with
    | none => exact absurd hhit (by simp)
    | some b =>
      simp only [Function.iterate_zero_apply, Option.map_some', Option.some.injEq] at hhit
      cases fuel with
      | zero => exact absurd hlt (by omega)
      | succ m =>
        unfold hitsLoop
        rw [if_pos (by simp [hhit])]
  | succ jj ih =>
    intro fuel s hlt hhit
    cases s with
    | none =>
      rw [walk_iterate_none] at hhit
      exact absurd hhit (by simp)
    | some b =>
      cases fuel with
      | zero => exact absurd hlt (by omega)
      | succ m =>
        unfold hitsLoop
        cases hi : b.id == target with
        | true => simp
        | false =>
          rw [if_neg (by simp [hi])]
          rw [Function.iterate_succ_apply] at hhit
          exact ih m (walk bones (some b)) (by omega) hhit

/-- In any bone list, a walk that meets the target id meets it within
`bones.length` steps (minimal-hit pigeonhole: the positions before the
first hit are pairwise distinct members of the list). -/
theorem hit_bound (bones : List Bone) (np target : String) :
    IsDescendantOf bones np target →
    ∃ j ≤ bones.length,
      ((walk bones)^[j] (findBone bones np)).map (fun b => b.id) = some target := by
  intro hex
  obtain ⟨j, hj⟩ := hex
  have hexx : ∃ j, ((walk bones)^[j] (findBone bones np)).map (fun b => b.id) = some target :=
    ⟨j, hj⟩
  classical
  let j0 := Nat.find hexx
  have hj0 : ((walk bones)^[j0] (findBone bones np)).map (fun b => b.id) = some target :=
    Nat.find_spec hexx
  have hmin : ∀ i < j0, ¬((walk bones)^[i] (findBone bones np)).map (fun b => b.id) = some target :=
    fun i hi => Nat.find_min hexx hi
  have hsome : ∀ t ≤ j0, ∃ b, (walk bones)^[t] (findBone bones np) = some b := by
    intro t ht
    cases hx : (walk bones)^[t] (findBone bones np) with
    | some b => exact ⟨b, rfl⟩
    | none =>
      exfalso
      have : (walk bones)^[j0] (findBone bones np) = none := by
        have harith : j0 = (j0 - t) + t := by omega
        rw [harith, Function.iterate_add_apply, hx, walk_iterate_none]
      rw [this] at hj0
      exact absurd hj0 (by simp)
  have hinj : ∀ r rp, r < rp → rp ≤ j0 →
      (walk bones)^[r] (findBone bones np) = (walk bones)^[rp] (findBone bones np) → False := by
    intro r rp hlt hle heq
    have hsame : (walk bones)^[j0 - (rp - r)] (findBone bones np) =
        (walk bones)^[j0] (findBone bones np) := by
      have h1 : j0 - (rp - r) = (j0 - rp) + r := by omega
      have h2 : j0 = (j0 - rp) + rp := by omega
      rw [h1, Function.iterate_add_apply, heq, ← Function.iterate_add_apply, ← h2]
    have hP : ((walk bones)^[j0 - (rp - r)] (findBone bones np)).map (fun b => b.id) =
        some target := by rw [hsame]; exact hj0
    exact hmin _ (by omega) hP
  have hmem := walk_iterate_mem bones np
  have hcard : j0 + 1 ≤ bones.length := by
    have h1 : (Finset.univ : Finset (Fin (j0 + 1))).card ≤
        (bones.toFinset.image some).card := by
      apply Finset.card_le_card_of_injOn
        (fun t : Fin (j0 + 1) => (walk bones)^[t.1] (findBone bones np))
      · intro t _
        obtain ⟨b, hb⟩ := hsome t.1 (Nat.lt_succ_iff.mp t.2)
        rw [hb]
        exact Finset.mem_image_of_mem some (List.mem_toFinset.mpr (hmem t.1 b hb))
      · intro r _ rp _ heq
        by_contra hne
        rcases Nat.lt_or_ge r.1 rp.1 with h | h
        · exact hinj r.1 rp.1 h (Nat.lt_succ_iff.mp rp.2) heq
        · have h' : rp.1 < r.1 := by
            rcases Nat.lt_or_ge rp.1 r.1 with h2 | h2
            · exact h2
            · exact absurd (Fin.ext (by omega)) hne
          exact hinj rp.1 r.1 h' (Nat.lt_succ_iff.mp r.2) heq.symm
    have h2 : (bones.toFinset.image some).card ≤ bones.toFinset.card :=
      Finset.card_image_le
    have h3 : bones.toFinset.card ≤ bones.length := bones.toFinset_card_le
    have h4 : (Finset.univ : Finset (Fin (j0 + 1))).card = j0 + 1 := by simp
    omega
  exact ⟨j0, by omega, hj0⟩

/-- `reparentFix` never changes a bone's id. -/
theorem reparentFix_id (boneId : String) (np : Option String) (b : Bone) :
    (reparentFix boneId np b).id = b.id := by
  unfold reparentFix
  split <;> rfl

/-- Looking a bone up in the updated list returns the updated original. -/
theorem findBone_update (bones : List Bone) (boneId : String) (np : Option String)
    (i : String) :
    findBone (reparentUpdate bones boneId np) i =
      (findBone bones i).map (reparentFix boneId np) := by
  unfold findBone reparentUpdate
  have hpred : ((fun b : Bone => b.id == i) ∘ reparentFix boneId np) =
      (fun b : Bone => b.id == i) := by
    funext b
    simp [Function.comp, reparentFix_id]
  rw [List.find?_map, hpred]

/-- One step of the walk in the updated list: redirected at the updated
bone, the image of the old step elsewhere. -/
theorem walk_update_step (bones : List Bone) (boneId : String) (np : Option String)
    (c : Bone) :
    walk (reparentUpdate bones boneId np) (some (reparentFix boneId np c)) =
      if c.id = boneId then
        (np.bind (findBone bones)).map (reparentFix boneId np)
      else (walk bones (some c)).map (reparentFix boneId np) := by
  by_cases hc : c.id = boneId
  · rw [if_pos hc]
    have hfc : reparentFix boneId np c = { c with parentId := np } := by
      unfold reparentFix
      rw [if_pos (by simp [hc])]
    rw [hfc, walk_some]
    show (match np with
      | none => none
      | some p => findBone (reparentUpdate bones boneId np) p) = _
    cases np with
    | none => rfl
    | some p =>
      show findBone (reparentUpdate bones boneId (some p)) p = _
      rw [findBone_update]
      rfl
  · rw [if_neg hc]
    have hfc : reparentFix boneId np c = c := by
      unfold reparentFix
      rw [if_neg (by simp [hc])]
    rw [hfc, walk_some, walk_some]
    cases hp : c.parentId with
    | none => rfl
    | some p => exact findBone_update bones boneId np p

/-- As long as the old walk has not met the updated bone's id, the new walk
is the image of the old one. -/
theorem walk_update_agrees (bones : List Bone) (boneId : String) (np : Option String) :
    ∀ (k : ℕ) (s : Option Bone),
      (∀ j < k, ∀ c, (walk bones)^[j] s = some c → c.id ≠ boneId) →
      (walk (reparentUpdate bones boneId np))^[k]
          (s.map (reparentFix boneId np)) =
        ((walk bones)^[k] s).map (reparentFix boneId np) := by
  intro k
  induction k with
  | zero => intro s _; rfl
  | succ n ih =>
    intro s hno
    rw [Function.iterate_succ_apply, Function.iterate_succ_apply]
    cases s with
    | none =>
      show (walk (reparentUpdate bones boneId np))^[n]
          (walk (reparentUpdate bones boneId np) none) = _
      have h1 : walk (reparentUpdate bones boneId np) none = none := rfl
      have h2 : walk bones none = none := rfl
      rw [h1, h2, walk_iterate_none, walk_iterate_none]
      rfl
    | some c =>
      have hc : c.id ≠ boneId := hno 0 (by omega) c rfl
      have hstep := walk_update_step bones boneId np c
      rw [if_neg hc] at hstep
      show (walk (reparentUpdate bones boneId np))^[n]
          (walk (reparentUpdate bones boneId np) (some (reparentFix boneId np c))) = _
      rw [hstep]
      exact ih (walk bones (some c)) fun j hj d hd =>
        hno (j + 1) (by omega) d (by rw [Function.iterate_succ_apply]; exact hd)

/-- Core preservation: if the old graph is a forest and the new-parent
chain neither meets the moved bone nor fails to terminate, the updated
graph is a forest. -/
theorem forest_update (bones : List Bone) (boneId : String) (np : Option String)
    (hF : Forest bones)
    (hnohit : ∀ (j : ℕ) (b : Bone),
      (walk bones)^[j] (np.bind (findBone bones)) = some b → b.id ≠ boneId)
    (hdies : ∃ j, (walk bones)^[j] (np.bind (findBone bones)) = none) :
    Forest (reparentUpdate bones boneId np) := by
  intro b' hb'
  obtain ⟨b, hb, rfl⟩ := List.mem_map.mp hb'
  classical
  by_cases H : ∃ t, ((walk bones)^[t] (some b)).map (fun x => x.id) = some boneId
  · let t0 := Nat.find H
    have ht0 : ((walk bones)^[t0] (some b)).map (fun x => x.id) = some boneId :=
      Nat.find_spec H
    have hmin : ∀ i < t0, ¬((walk bones)^[i] (some b)).map (fun x => x.id) = some boneId :=
      fun i hi => Nat.find_min H hi
    obtain ⟨c, hc, hcid⟩ : ∃ c, (walk bones)^[t0] (some b) = some c ∧ c.id = boneId := by
      cases hx : (walk bones)^[t0] (some b) with
      | none => rw [hx] at ht0; exact absurd ht0 (by simp)
      | some c =>
        rw [hx] at ht0
        exact ⟨c, rfl, by simpa using ht0⟩
    have hagree : (walk (reparentUpdate bones boneId np))^[t0]
        ((some b).map (reparentFix boneId np)) =
        ((walk bones)^[t0] (some b)).map (reparentFix boneId np) := by
      apply walk_update_agrees
      intro j hj d hd hdid
      exact hmin j hj (by rw [hd]; simp [hdid])
    obtain ⟨K, hK⟩ := hdies
    have hnp : (walk (reparentUpdate bones boneId np))^[K]
        ((np.bind (findBone bones)).map (reparentFix boneId np)) = none := by
      rw [walk_update_agrees bones boneId np K (np.bind (findBone bones))
        (fun j _ d hd => hnohit j d hd), hK]
      rfl
    refine ⟨K + (t0 + 1), ?_⟩
    rw [Function.iterate_add_apply]
    have hstep1 : (walk (reparentUpdate bones boneId np))^[t0 + 1]
        (some (reparentFix boneId np b)) =
        (np.bind (findBone bones)).map (reparentFix boneId np) := by
      rw [Function.iterate_succ_apply']
      have : (walk (reparentUpdate bones boneId np))^[t0]
          (some (reparentFix boneId np b)) =
          some (reparentFix boneId np c) := by
        have := hagree
        rw [hc] at this
        exact this
      rw [this]
      have hs := walk_update_step bones boneId np c
      rw [if_pos hcid] at hs
      exact hs
    rw [hstep1]
    exact hnp
  · push_neg at H
    obtain ⟨K, hK⟩ := hF b hb
    refine ⟨K, ?_⟩
    have hagree : (walk (reparentUpdate bones boneId np))^[K]
        ((some b).map (reparentFix boneId np)) =
        ((walk bones)^[K] (some b)).map (reparentFix boneId np) := by
      apply walk_update_agrees
      intro j _ d hd hdid
      exact absurd (show ((walk bones)^[j] (some b)).map (fun x => x.id) = some boneId by
        rw [hd]; simp [hdid]) (H j)
    show (walk (reparentUpdate bones boneId np))^[K]
        (some (reparentFix boneId np b)) = none
    have : (some b).map (reparentFix boneId np) = some (reparentFix boneId np b) := rfl
    rw [← this, hagree, hK]
    rfl

/-- C9: in a forest, reparenting a bone onto itself or one of its own
descendants is rejected — the bone list is returned unchanged with the
rejection flag — and the parent graph stays a forest after **every**
reparent call, accepted or rejected. -/
theorem C9_reparent_preserves_forest :
    ∀ (bones : List Bone), Forest bones →
      (∀ (boneId np : String), IsDescendantOf bones np boneId →
        reparentBone bones boneId (some np) = (bones, false)) ∧
      (∀ (boneId : String) (np : Option String),
        Forest (reparentBone bones boneId np).1) := by
  intro bones hF
  constructor
  · intro boneId np hdesc
    obtain ⟨j, hjle, hj⟩ := hit_bound bones np boneId hdesc
    have hguard : hitsLoop bones boneId (bones.length + 1) (findBone bones np) = true :=
      hitsLoop_true_of_hit bones boneId j (bones.length + 1) (findBone bones np)
        (by omega) hj
    show (if hitsLoop bones boneId (bones.length + 1) (findBone bones np) = true
      then ((bones : List Bone), false)
      else (reparentUpdate bones boneId (some np), true)) = (bones, false)
    rw [if_pos hguard]
  · intro boneId np
    cases np with
    | none =>
      show Forest (reparentUpdate bones boneId none, true).1
      apply forest_update bones boneId none hF
      · intro j b hb
        rw [show (none : Option String).bind (findBone bones) = none from rfl,
          walk_iterate_none] at hb
        exact absurd hb (by simp)
      · exact ⟨0, by rw [show (none : Option String).bind (findBone bones) = none from rfl]; rfl⟩
    | some p =>
      show Forest (if hitsLoop bones boneId (bones.length + 1) (findBone bones p) = true
        then ((bones : List Bone), false)
        else (reparentUpdate bones boneId (some p), true)).1
      cases hg : hitsLoop bones boneId (bones.length + 1) (findBone bones p) with
      | true =>
        rw [if_pos rfl]
        exact hF
      | false =>
        rw [if_neg (by simp)]
        obtain ⟨hnohit, hdies⟩ :=
          hitsLoop_false_no_hit bones boneId (bones.length + 1) (findBone bones p) hg
        exact forest_update bones boneId (some p) hF hnohit hdies

/-- Witness for C9: a two-bone chain `b1 → b2`; reparenting `b1` onto its
child `b2` is rejected and the list is unchanged. -/
theorem C9_reparent_preserves_forest_witness :
    reparentBone [boneB1, boneB2] "b1" (some "b2") = ([boneB1, boneB2], false) := by
  have hforest : Forest [boneB1, boneB2] := by
    intro b hb
    simp only [List.mem_cons, List.mem_singleton, List.not_mem_nil, or_false] at hb
    rcases hb with rfl | rfl
    · exact ⟨1, rfl⟩
    · exact ⟨2, rfl⟩
  exact (C9_reparent_preserves_forest [boneB1, boneB2] hforest).1 "b1" "b2" ⟨1, rfl⟩

end SpriteAnimator
